import Mathlib

/-!
Verification of the plan-refinement loop of the multi-agent orchestrator
(`backend/agent/orchestrator.py`, `backend/agent/planner_agent.py`,
`backend/agent/reviewer_agent.py`).

The Python values flowing through the loop are JSON-like documents
(`Dict[str, Any]` produced by `json.loads`).  We embed them as the
inductive type `Json` below and give Python's truthiness / `len` /
`dict.get` semantics explicitly.  Operations that can raise a Python
`TypeError`/`AttributeError` (e.g. `len` of an int, `.strip()` of a
non-string) are modelled in the `Except Unit` monad: `.error ()` is an
uncaught exception propagating out of a langgraph node.

`json.loads` itself is kept abstract as a parameter
`loads : String → Option (List (String × Json))`: every call site in the
source parses a brace-delimited slice, so a successful parse is always a
JSON object (field list); `none` is a parse failure (caught by the
callers).  The LLM is an oracle `llm : Nat → String` giving the text of
the n-th generation call of a pipeline run.
-/

inductive Json where
  | null : Json
  | bool : Bool → Json
  | num : Int → Json
  | str : String → Json
  | arr : List Json → Json
  | obj : List (String × Json) → Json

/-- Python truthiness of a JSON value (`bool(x)`). -/
def pyTruthy : Json → Bool
  | .null => false
  | .bool b => b
  | .num n => n != 0
  | .str s => !s.isEmpty
  | .arr l => !l.isEmpty
  | .obj l => !l.isEmpty

/-- `x or d` for a JSON value `x` and default `d`. -/
def pyOr (v d : Json) : Json := if pyTruthy v then v else d

/-- Python `len(x)`: defined on strings, lists and dicts, `TypeError`
(modelled as `.error ()`) otherwise. -/
def pyLenE : Json → Except Unit Nat
  | .str s => .ok s.length
  | .arr l => .ok l.length
  | .obj l => .ok l.length
  | _ => .error ()

/-- Elements produced by iterating a sized JSON value: a list yields its
elements, a string its characters (as one-character strings), a dict its
keys.  Only ever applied after `pyLenE` succeeded. -/
def pyElems : Json → List Json
  | .arr l => l
  | .str s => s.data.map (fun c => .str (String.mk [c]))
  | .obj l => l.map (fun p => .str p.1)
  | _ => []

/-- Python iteration `for x in v`: lists, strings and dicts are iterable,
anything else raises `TypeError`. -/
def pyIterE : Json → Except Unit (List Json)
  | .arr l => .ok l
  | .str s => .ok (s.data.map (fun c => .str (String.mk [c])))
  | .obj l => .ok (l.map (fun p => .str p.1))
  | _ => .error ()

/-- `plan.get(k)` on a dict given as a field list: value of the first
matching key, `None` when absent. -/
def objGet (fs : List (String × Json)) (k : String) : Json :=
  match fs.find? (fun p => p.1 == k) with
  | some p => p.2
  | none => .null

/-- `plan.get(k, d)` with an explicit default. -/
def objGetD (fs : List (String × Json)) (k : String) (d : Json) : Json :=
  match fs.find? (fun p => p.1 == k) with
  | some p => p.2
  | none => d

/-- `k in data` for a dict. -/
def objHasKey (fs : List (String × Json)) (k : String) : Bool :=
  fs.any (fun p => p.1 == k)

/-- The field list of a JSON value that must be a dict; attribute access
on anything else raises (`AttributeError`). -/
def objFieldsE : Json → Except Unit (List (String × Json))
  | .obj fs => .ok fs
  | _ => .error ()

/-- `isinstance(v, dict)`. -/
def isDict : Json → Bool
  | .obj _ => true
  | _ => false

/-- `isinstance(v, list)`. -/
def isList : Json → Bool
  | .arr _ => true
  | _ => false

/-- Python whitespace characters recognised by `str.strip()`. -/
def pyWhitespace (c : Char) : Bool :=
  c == ' ' || c == '\t' || c == '\n' || c == '\r' ||
  c == Char.ofNat 11 || c == Char.ofNat 12

/-- `s.strip()`. -/
def pyStrip (s : String) : String :=
  String.mk (((s.data.dropWhile pyWhitespace).reverse.dropWhile pyWhitespace).reverse)

/-- `s.lower()` (ASCII case folding). -/
def pyLower (s : String) : String :=
  String.mk (s.data.map Char.toLower)

/-- `(v or "").strip().lower()`: a falsy value is replaced by the empty
string; a truthy non-string raises `AttributeError`. -/
def orStrStripLowerE (v : Json) : Except Unit String :=
  if pyTruthy v then
    match v with
    | .str s => .ok (pyLower (pyStrip s))
    | _ => .error ()
  else
    .ok ""

/-- `v.lower()` where `v` came from `dict.get(k, "")`: must be a string
(even a falsy non-string such as `None` raises `AttributeError`). -/
def strLowerE : Json → Except Unit String
  | .str s => .ok (pyLower s)
  | _ => .error ()

/-- Is `pre` a prefix of `l`? -/
def listStarts : List Char → List Char → Bool
  | [], _ => true
  | _ :: _, [] => false
  | a :: as, b :: bs => a == b && listStarts as bs

/-- Does `hay` contain `needle` as a contiguous sublist? -/
def listHasSub (needle : List Char) : List Char → Bool
  | [] => listStarts needle []
  | b :: bs => listStarts needle (b :: bs) || listHasSub needle bs

/-- Python substring test `needle in hay`. -/
def pyInStr (needle hay : String) : Bool := listHasSub needle.data hay.data

/-- `any(w in lowered for w in ["day", "week", "itinerary"])` applied to
the lower-cased task text (orchestrator.py lines 58-59, reviewer_agent.py
line 39). -/
def granularMatch (task : String) : Bool :=
  ["day", "week", "itinerary"].any (fun w => pyInStr w (pyLower task))

/-- Per-phase violation-code builder: `f"timeline_phase_{idx}..."`. -/
def phaseIssue (idx : Nat) (suffix : String) : String :=
  "timeline_phase_" ++ (toString idx ++ suffix)

/-- Per-workstream violation-code builder: `f"workstream_{i}..."`. -/
def wsIssue (i : Nat) (suffix : String) : String :=
  "workstream_" ++ (toString i ++ suffix)

/-- Per-risk violation-code builder: `f"risk_{i}..."`. -/
def riskIssue (i : Nat) (suffix : String) : String :=
  "risk_" ++ (toString i ++ suffix)

/-- The shared check `not plan.get(k) or len(plan[k]) < n` producing the
violation `code` (used for `assumptions`/`metrics` in `_plan_issues` and
for all five sections in `_must_fix`). -/
def lenCheck (v : Json) (n : Nat) (code : String) : Except Unit (List String) :=
  if !pyTruthy v then .ok [code]
  else do
    let l ← pyLenE v
    .ok (if l < n then [code] else [])

/-- The per-phase loop of `_plan_issues` (orchestrator.py lines 48-55):
each phase must be a dict carrying truthy list-valued `milestones` and
`deliverables`; a non-dict phase is reported and skipped. -/
def phaseChecks (idx : Nat) : List Json → List String
  | [] => []
  | ph :: rest =>
    (match ph with
     | .obj pfs =>
       (if !pyTruthy (objGet pfs "milestones") || !isList (objGet pfs "milestones") then
          [phaseIssue idx "_milestones_missing"] else []) ++
       (if !pyTruthy (objGet pfs "deliverables") || !isList (objGet pfs "deliverables") then
          [phaseIssue idx "_deliverables_missing"] else [])
     | _ => [phaseIssue idx "_not_dict"]) ++ phaseChecks (idx + 1) rest

/-- The per-workstream loop of `_plan_issues` (orchestrator.py lines
69-84): field checks, then case-insensitive name-duplication tracking via
the `names_seen` set (only non-empty stripped lower-cased names are
tracked; `workstreams_unique` is appended on every repeat occurrence). -/
def wsChecks (i : Nat) (seen : List String) : List Json → Except Unit (List String)
  | [] => .ok []
  | ws :: rest =>
    match ws with
    | .obj wfs => do
      let fieldIssues :=
        (if !pyTruthy (objGet wfs "tasks") || !isList (objGet wfs "tasks") then
           [wsIssue i "_tasks_missing"] else []) ++
        (if !pyTruthy (objGet wfs "owner") then [wsIssue i "_owner_missing"] else []) ++
        (if !pyTruthy (objGet wfs "dependencies") || !isList (objGet wfs "dependencies") then
           [wsIssue i "_dependencies_missing"] else [])
      let nm ← orStrStripLowerE (objGet wfs "name")
      let dupIssues := if nm ≠ "" && seen.contains nm then ["workstreams_unique"] else []
      let seen' := if nm ≠ "" then nm :: seen else seen
      let restIssues ← wsChecks (i + 1) seen' rest
      .ok (fieldIssues ++ dupIssues ++ restIssues)
    | _ => do
      let restIssues ← wsChecks (i + 1) seen rest
      .ok (wsIssue i "_not_dict" :: restIssues)

/-- The per-risk loop of `_plan_issues` (orchestrator.py lines 91-105):
missing-name / duplicate-name (`risks_diverse`) / missing-impact /
missing-mitigation checks; the `seen` set receives every name (including
the empty one), and a non-dict risk is reported and skipped. -/
def riskChecks (i : Nat) (seen : List String) : List Json → Except Unit (List String)
  | [] => .ok []
  | r :: rest =>
    match r with
    | .obj rfs => do
      let nm ← orStrStripLowerE (objGet rfs "risk")
      let nameIssues := if nm = "" then [riskIssue i "_name_missing"] else []
      let dupIssues := if seen.contains nm then ["risks_diverse"] else []
      let impactIssues := if !pyTruthy (objGet rfs "impact") then [riskIssue i "_impact_missing"] else []
      let mitIssues := if !pyTruthy (objGet rfs "mitigation") then [riskIssue i "_mitigation_missing"] else []
      let restIssues ← riskChecks (i + 1) (nm :: seen) rest
      .ok (nameIssues ++ dupIssues ++ impactIssues ++ mitIssues ++ restIssues)
    | _ => do
      let restIssues ← riskChecks (i + 1) seen rest
      .ok (riskIssue i "_not_dict" :: restIssues)

/-- The timeline block of `_plan_issues` (orchestrator.py lines 43-55):
`timeline = plan.get("timeline") or []`, the length minimum, and the
per-phase loop; also returns the computed length, which the
granular-schedule rule reuses. -/
def timelineSection (fs : List (String × Json)) : Except Unit (Nat × List String) := do
  let timeline := pyOr (objGet fs "timeline") (.arr [])
  let tlen ← pyLenE timeline
  .ok (tlen, if tlen < 4 then ["timeline>=4"] else phaseChecks 1 (pyElems timeline))

/-- The workstream block of `_plan_issues` (orchestrator.py lines
65-84). -/
def wsSection (fs : List (String × Json)) : Except Unit (List String) := do
  let workstreams := pyOr (objGet fs "workstreams") (.arr [])
  let wlen ← pyLenE workstreams
  if wlen < 4 then .ok ["workstreams>=4"] else wsChecks 1 [] (pyElems workstreams)

/-- The risk block of `_plan_issues` (orchestrator.py lines 87-105). -/
def riskSection (fs : List (String × Json)) : Except Unit (List String) := do
  let risks := pyOr (objGet fs "risks") (.arr [])
  let rlen ← pyLenE risks
  if rlen < 4 then .ok ["risks>=4"] else riskChecks 1 [] (pyElems risks)

/-- `_plan_issues(plan, task)` (orchestrator.py lines 33-111): the
deterministic schema validator.  Returns the ordered violation list, or
`.error ()` when a check raises (e.g. `len` of a truthy non-sized
value). -/
def planIssues (plan : Json) (task : String) : Except Unit (List String) :=
  if !isDict plan || !pyTruthy plan then .ok ["plan_missing_or_not_dict"]
  else
    match plan with
    | .obj fs => do
      let aIssues ← lenCheck (objGet fs "assumptions") 3 "assumptions>=3"
      let tResult ← timelineSection fs
      let gIssues := if granularMatch task && tResult.1 < 7 then ["timeline_daily_breakdown_required"] else []
      let wIssues ← wsSection fs
      let rIssues ← riskSection fs
      let mIssues ← lenCheck (objGet fs "metrics") 3 "metrics>=3"
      .ok (aIssues ++ tResult.2 ++ gIssues ++ wIssues ++ rIssues ++ mIssues)
    | _ => .error ()

/-- Number of distinct elements, Python `len(set(l))`. -/
def numDistinct (l : List String) : Nat :=
  (l.foldl (fun acc n => if acc.contains n then acc else n :: acc) []).length

/-- The per-workstream field loop of `_must_fix` (reviewer_agent.py lines
33-35): runs over `plan.get("workstreams", [])` regardless of length; a
non-dict element raises. -/
def wsFieldProbs (i : Nat) : List Json → Except Unit (List String)
  | [] => .ok []
  | ws :: rest => do
    let wfs ← objFieldsE ws
    let p :=
      if !pyTruthy (objGet wfs "tasks") || !pyTruthy (objGet wfs "owner") ||
         !pyTruthy (objGet wfs "dependencies") then [wsIssue i "_fields"] else []
    let restProbs ← wsFieldProbs (i + 1) rest
    .ok (p ++ restProbs)

/-- `[r.get("risk", "").lower() for r in ...]` / the analogous
workstream-name comprehension of `_must_fix` (reviewer_agent.py lines
48, 53): collects lower-cased names, raising on a non-dict element or a
key bound to a non-string. -/
def lowerNamesE (key : String) (l : List Json) : Except Unit (List String) :=
  l.mapM (fun r => do
    let rfs ← objFieldsE r
    strLowerE (objGetD rfs key (.str "")))

/-- `_must_fix(plan, task)` (reviewer_agent.py lines 19-57): the Reviewer
agent's own pre-check deciding whether a corrective generation call is
issued.  Only used for its emptiness and its exceptions by the loop. -/
def mustFix (plan : Json) (task : String) : Except Unit (List String) := do
  let fs ← objFieldsE plan
  let p1 ← lenCheck (objGet fs "assumptions") 3 "assumptions>=3"
  let p2 ← lenCheck (objGet fs "timeline") 4 "timeline>=4"
  let p3 ← lenCheck (objGet fs "workstreams") 4 "workstreams>=4"
  let p4 ← lenCheck (objGet fs "risks") 4 "risks>=4"
  let p5 ← lenCheck (objGet fs "metrics") 3 "metrics>=3"
  let wsl ← pyIterE (objGetD fs "workstreams" (.arr []))
  let p6 ← wsFieldProbs 1 wsl
  let p7 ←
    if granularMatch task then do
      let n ← pyLenE (objGetD fs "timeline" (.arr []))
      pure (if n < 7 then ["timeline_daily_breakdown_required"] else [])
    else pure []
  let p8 := if pyTruthy (objGet fs "open_questions") then ["open_questions_resolved"] else []
  let rl ← pyIterE (objGetD fs "risks" (.arr []))
  let riskNames ← lowerNamesE "risk" rl
  let p9 := if riskNames.length ≠ numDistinct riskNames then ["risks_diverse"] else []
  let wl ← pyIterE (objGetD fs "workstreams" (.arr []))
  let wsNames ← lowerNamesE "name" wl
  let p10 := if wsNames.length ≠ numDistinct wsNames then ["workstreams_unique"] else []
  .ok (p1 ++ p2 ++ p3 ++ p4 ++ p5 ++ p6 ++ p7 ++ p8 ++ p9 ++ p10)

/-- `text.find(c)`: index of the first occurrence, `none` for Python's
`-1`. -/
def pyFind (s : String) (c : Char) : Option Nat :=
  s.data.findIdx? (fun d => d == c)

/-- `text.rfind(c)`: index of the last occurrence, `none` for `-1`. -/
def pyRFind (s : String) (c : Char) : Option Nat :=
  match s.data.reverse.findIdx? (fun d => d == c) with
  | some i => some (s.data.length - 1 - i)
  | none => none

/-- Python slice `text[start:stop]` (with `0 ≤ start ≤ len`); an empty
string when `stop ≤ start`. -/
def pySlice (s : String) (start stop : Nat) : String :=
  String.mk ((s.data.drop start).take (stop - start))

/-- `_try_parse_json(text)` (planner_agent.py lines 19-28): strip, find
the first `{` and last `}`, and parse the enclosed slice when the span is
non-trivial; any parse error is caught and becomes `none`. -/
def tryParseJson (loads : String → Option (List (String × Json))) (text : String) :
    Option (List (String × Json)) :=
  let t := pyStrip text
  match pyFind t '{', pyRFind t '}' with
  | some start, some stop => if start < stop then loads (pySlice t start (stop + 1)) else none
  | _, _ => none

/-- One parse-and-shape attempt of `_safe_call_planner` (planner_agent.py
lines 32-34, 42-44): the parsed value must be truthy and contain all five
required keys. -/
def planAttempt (loads : String → Option (List (String × Json))) (text : String) :
    Option (List (String × Json)) :=
  match tryParseJson loads text with
  | some d =>
    if !d.isEmpty &&
       (["timeline", "workstreams", "risks", "metrics", "assumptions"].all
         (fun k => objHasKey d k)) then some d
    else none
  | none => none

/-- The `for _ in range(retries)` retry loop of `_safe_call_planner`
(planner_agent.py lines 36-44); `cur` is the global generation-call
cursor. -/
def safeCallRetry (llm : Nat → String) (loads : String → Option (List (String × Json)))
    (cur : Nat) : Nat → Option (List (String × Json)) × Nat
  | 0 => (none, cur)
  | n + 1 =>
    match planAttempt loads (pyStrip (llm cur)) with
    | some d => (some d, cur + 1)
    | none => safeCallRetry llm loads (cur + 1) n

/-- `_safe_call_planner(llm, system, user, retries=2)` (planner_agent.py
lines 30-45): an initial attempt plus up to two retries with a tightened
prompt; returns the parsed document or `None`, together with the advanced
call cursor.  `_call_llm` strips the raw response. -/
def safeCallPlanner (llm : Nat → String) (loads : String → Option (List (String × Json)))
    (cur : Nat) : Option (List (String × Json)) × Nat :=
  match planAttempt loads (pyStrip (llm cur)) with
  | some d => (some d, cur + 1)
  | none => safeCallRetry llm loads (cur + 1) 2

/-- The minimal-skeleton fallback plan of `planner_node` (planner_agent.py
lines 97-104). -/
def skeletonPlan (task : String) : Json :=
  .obj [("objective", .str task),
        ("assumptions", .arr [.str "TBD", .str "TBD", .str "TBD"]),
        ("timeline", .arr []),
        ("workstreams", .arr []),
        ("risks", .arr []),
        ("metrics", .arr [])]

/-- The plan value produced by `planner_node` (planner_agent.py lines
95-104): the parsed document, or the minimal skeleton when every attempt
failed. -/
def plannerData (llm : Nat → String) (loads : String → Option (List (String × Json)))
    (task : String) (cur : Nat) : Json × Nat :=
  match safeCallPlanner llm loads cur with
  | (some d, cur') => (.obj d, cur')
  | (none, cur') => (skeletonPlan task, cur')

/-- The corrective-parse step of `reviewer_node` (reviewer_agent.py lines
106-110): `fixed = json.loads(out[start:end+1]) if start != -1 and
end != -1 else plan`, with any exception caught and replaced by the
unmodified input plan. -/
def reviewerFix (loads : String → Option (List (String × Json))) (out : String)
    (plan : Json) : Json :=
  match pyFind out '{', pyRFind out '}' with
  | some start, some stop =>
    (match loads (pySlice out start (stop + 1)) with
     | some d => .obj d
     | none => plan)
  | _, _ => plan

/-- The parse outcome of the corrective step in isolation (`none` =
"the generation response cannot be parsed as a structured document"). -/
def reviewerParsed (loads : String → Option (List (String × Json))) (out : String) :
    Option (List (String × Json)) :=
  match pyFind out '{', pyRFind out '}' with
  | some start, some stop => loads (pySlice out start (stop + 1))
  | _, _ => none

/-- The slice of `OrchestratorState` (orchestrator.py lines 12-23) that
the refinement loop reads and writes, plus the generation-call cursor
`llm_calls` (the index of the next `llm.invoke`, i.e. the number of raw
provider calls issued so far in this pipeline run). -/
structure LState where
  task : String
  plan : Option Json
  validated : Bool
  review_attempts : Nat
  max_review_attempts : Nat
  logs : List String
  llm_calls : Nat

/-- `state.get("plan") or {}` (orchestrator.py line 115, reviewer_agent.py
line 62). -/
def orDict : Option Json → Json
  | none => .obj []
  | some v => if pyTruthy v then v else .obj []

/-- `planner_node(state)` (planner_agent.py lines 47-106): log, call
`_safe_call_planner`, fall back to the minimal skeleton, store the plan.
Total: the planner never raises. -/
def plannerNode (llm : Nat → String) (loads : String → Option (List (String × Json)))
    (s : LState) : LState :=
  let s0 := { s with logs := s.logs ++ ["Planner: creating detailed timeline, workstreams, and risks."] }
  let (data, cur) := plannerData llm loads s.task s.llm_calls
  { s0 with plan := some data, llm_calls := cur,
            logs := s0.logs ++ ["Planner: detailed plan drafted."] }

/-- `reviewer_node(state)` (reviewer_agent.py lines 60-113): run
`_must_fix`; if clean, mark validated without a generation call;
otherwise issue one corrective generation call and store the parsed fix
(or the unchanged plan on parse failure).  The returned flag records
whether a corrective generation call was issued. -/
def reviewerNode (llm : Nat → String) (loads : String → Option (List (String × Json)))
    (s : LState) : Except Unit (LState × Bool) := do
  let s0 := { s with logs := s.logs ++ ["Reviewer: validating plan structure and completeness."] }
  let plan := orDict s.plan
  let issues ← mustFix plan s.task
  if issues.isEmpty then
    .ok ({ s0 with validated := true,
                   logs := s0.logs ++ ["Reviewer: plan passed validation."] }, false)
  else
    let s1 := { s0 with logs := s0.logs ++
      ["Reviewer: found issues -> " ++ (String.intercalate ", " issues ++ ". Requesting refinement.")] }
    let out := pyStrip (llm s1.llm_calls)
    let fixed := reviewerFix loads out plan
    .ok ({ s1 with plan := some fixed, validated := false, llm_calls := s1.llm_calls + 1,
                   logs := s1.logs ++ ["Reviewer: plan corrected."] }, true)

/-- `validator_node(state)` (orchestrator.py lines 113-129): the pure
gate; on violations it increments `review_attempts` and clears
`validated`, on success it sets `validated` leaving the counter
untouched.  The returned flag records whether validation failed. -/
def validatorNode (s : LState) : Except Unit (LState × Bool) := do
  let plan := orDict s.plan
  let issues ← planIssues plan s.task
  if !issues.isEmpty then
    let attempts := s.review_attempts + 1
    .ok ({ s with validated := false, review_attempts := attempts,
                  logs := s.logs ++
                    ["Validator: plan still has issues -> " ++
                      (String.intercalate ", " issues ++
                        (" (attempt " ++ (toString attempts ++ ("/" ++ (toString s.max_review_attempts ++ ").")))))] }, true)
  else
    .ok ({ s with validated := true,
                  logs := s.logs ++ ["Validator: plan passed structural checks."] }, false)

/-- `validation_router(state)` (orchestrator.py lines 183-190): forward to
`"researcher"` (the loop's exit) when validated or when the retry limit is
reached, else back to `"planner"`. -/
def validationRouter (s : LState) : String :=
  if s.validated then "researcher"
  else if s.max_review_attempts ≤ s.review_attempts then "researcher"
  else "planner"

/-- One sweep of the wired loop body (orchestrator.py lines 176-181):
`planner → reviewer → validator`.  Events record, in execution order, the
planner invocation, whether the reviewer issued a corrective generation
call, and whether validation failed. -/
inductive Ev where
  | P : Ev
  | R : Bool → Ev
  | V : Bool → Ev
deriving DecidableEq

def runIter (llm : Nat → String) (loads : String → Option (List (String × Json)))
    (s : LState) : Except Unit (LState × List Ev) := do
  let s1 := plannerNode llm loads s
  let (s2, refined) ← reviewerNode llm loads s1
  let (s3, failed) ← validatorNode s2
  .ok (s3, [.P, .R refined, .V failed])

/-- The loop driven by `validation_router`: repeat the body until the
router forwards to `"researcher"`.  `fuel` dominates the number of body
executions; `.ok none` means the fuel ran out before the router exited,
`.error ()` an uncaught exception inside a node. -/
def runLoop (llm : Nat → String) (loads : String → Option (List (String × Json))) :
    Nat → LState → List Ev → Except Unit (Option (LState × List Ev))
  | 0, _, _ => .ok none
  | fuel + 1, s, tr => do
    let (s', evs) ← runIter llm loads s
    let tr' := tr ++ evs
    if validationRouter s' = "planner" then runLoop llm loads fuel s' tr'
    else .ok (some (s', tr'))

/-- The initial state built by `run_orchestrator` (orchestrator.py lines
205-212): `validated=False`, `review_attempts=0`, `max_review_attempts`
(3 in the source, kept as a parameter). -/
def initState (task : String) (maxAttempts : Nat) : LState :=
  { task := task, plan := none, validated := false, review_attempts := 0,
    max_review_attempts := maxAttempts, logs := [], llm_calls := 0 }

/-- A whole refinement-loop run from the initial state. -/
def loopRun (llm : Nat → String) (loads : String → Option (List (String × Json)))
    (fuel : Nat) (task : String) (maxAttempts : Nat) :
    Except Unit (Option (LState × List Ev)) :=
  runLoop llm loads fuel (initState task maxAttempts) []

/-- Did the run reach the loop's exit (the `DONE` state: the router
forwarded to `"researcher"`) without an exception? -/
def loopDone : Except Unit (Option (LState × List Ev)) → Bool
  | .ok (some _) => true
  | _ => false

def loopState : Except Unit (Option (LState × List Ev)) → Option LState
  | .ok (some (s, _)) => some s
  | _ => none

def loopTrace : Except Unit (Option (LState × List Ev)) → Option (List Ev)
  | .ok (some (_, tr)) => some tr
  | _ => none

def loopAttempts (r : Except Unit (Option (LState × List Ev))) : Option Nat :=
  (loopState r).map (fun s => s.review_attempts)

def loopValidated (r : Except Unit (Option (LState × List Ev))) : Option Bool :=
  (loopState r).map (fun s => s.validated)

/-- Raw generation-provider calls issued during the run. -/
def loopLLMCalls (r : Except Unit (Option (LState × List Ev))) : Option Nat :=
  (loopState r).map (fun s => s.llm_calls)

def countP (tr : List Ev) : Nat :=
  (tr.filter (fun e => match e with | .P => true | _ => false)).length

def countRefine (tr : List Ev) : Nat :=
  (tr.filter (fun e => match e with | .R true => true | _ => false)).length

def countV (tr : List Ev) : Nat :=
  (tr.filter (fun e => match e with | .V _ => true | _ => false)).length

def countVFail (tr : List Ev) : Nat :=
  (tr.filter (fun e => match e with | .V true => true | _ => false)).length

/-- Invocations of the two generative steps by the loop: Plan Generator
(planner node) runs plus Corrective Refiner (reviewer) generation
calls. -/
def loopGenSteps (r : Except Unit (Option (LState × List Ev))) : Option Nat :=
  (loopTrace r).map (fun tr => countP tr + countRefine tr)

def loopPCount (r : Except Unit (Option (LState × List Ev))) : Option Nat :=
  (loopTrace r).map countP

def loopVCount (r : Except Unit (Option (LState × List Ev))) : Option Nat :=
  (loopTrace r).map countV

def loopVFails (r : Except Unit (Option (LState × List Ev))) : Option Nat :=
  (loopTrace r).map countVFail

/-- `some n` with `n ≤ b`. -/
def optLE : Option Nat → Nat → Bool
  | some n, b => n ≤ b
  | none, _ => false

/-- `some n` with `b ≤ n`. -/
def optGE : Option Nat → Nat → Bool
  | some n, b => b ≤ n
  | none, _ => false

/-- Does the trace consist of complete `planner → reviewer → validator`
blocks? -/
def traceBlocks : List Ev → Bool
  | [] => true
  | .P :: .R _ :: .V _ :: rest => traceBlocks rest
  | _ => false

/-- A timeline Phase of the wire shape (§3/§6 of the spec): a label with
`milestones` and `deliverables` string sequences. -/
structure PhaseD where
  label : String
  milestones : List String
  deliverables : List String

/-- A Workstream of the wire shape. -/
structure WsD where
  name : String
  tasks : List String
  owner : String
  dependencies : List String

/-- A Risk of the wire shape. -/
structure RiskD where
  risk : String
  impact : String
  mitigation : String

/-- A Plan document of the wire shape: the six fields with their
documented types. -/
structure PlanD where
  objective : String
  assumptions : List String
  timeline : List PhaseD
  workstreams : List WsD
  risks : List RiskD
  metrics : List String

def PhaseD.toJson (ph : PhaseD) : Json :=
  .obj [("phase", .str ph.label),
        ("milestones", .arr (ph.milestones.map .str)),
        ("deliverables", .arr (ph.deliverables.map .str))]

def WsD.toJson (w : WsD) : Json :=
  .obj [("name", .str w.name),
        ("tasks", .arr (w.tasks.map .str)),
        ("owner", .str w.owner),
        ("dependencies", .arr (w.dependencies.map .str))]

def RiskD.toJson (r : RiskD) : Json :=
  .obj [("risk", .str r.risk),
        ("impact", .str r.impact),
        ("mitigation", .str r.mitigation)]

def PlanD.fields (p : PlanD) : List (String × Json) :=
  [("objective", .str p.objective),
   ("assumptions", .arr (p.assumptions.map .str)),
   ("timeline", .arr (p.timeline.map PhaseD.toJson)),
   ("workstreams", .arr (p.workstreams.map WsD.toJson)),
   ("risks", .arr (p.risks.map RiskD.toJson)),
   ("metrics", .arr (p.metrics.map .str))]

def PlanD.toJson (p : PlanD) : Json := .obj p.fields

/-- The key under which the validator compares workstream names:
`name.strip().lower()`. -/
def wsNameKey (w : WsD) : String := pyLower (pyStrip w.name)

/-- The key under which the validator compares risk names. -/
def riskNameKey (r : RiskD) : String := pyLower (pyStrip r.risk)

/-- Claim C3's spec-side notion of structural validity, formalised from
the claim's own wording over wire-shape plans: section minima, per-phase
milestone/deliverable sequences, per-workstream fields present,
workstream names unique under case-insensitive comparison, per-risk
fields present, risk names unique under case-insensitive comparison,
metrics minimum, and the granular-schedule timeline requirement. -/
def specStructValid (p : PlanD) (task : String) : Prop :=
  3 ≤ p.assumptions.length ∧
  4 ≤ p.timeline.length ∧
  (∀ ph ∈ p.timeline, ph.milestones ≠ [] ∧ ph.deliverables ≠ []) ∧
  (granularMatch task = true → 7 ≤ p.timeline.length) ∧
  4 ≤ p.workstreams.length ∧
  (∀ w ∈ p.workstreams, w.tasks ≠ [] ∧ w.owner ≠ "" ∧ w.dependencies ≠ []) ∧
  (p.workstreams.map (fun w => pyLower w.name)).Nodup ∧
  4 ≤ p.risks.length ∧
  (∀ r ∈ p.risks, r.risk ≠ "" ∧ r.impact ≠ "" ∧ r.mitigation ≠ "") ∧
  (p.risks.map (fun r => pyLower r.risk)).Nodup ∧
  3 ≤ p.metrics.length

/-- The structural-validity predicate the code actually decides, over
wire-shape plans: as `specStructValid`, except that name uniqueness is
keyed on the whitespace-stripped lower-cased name, workstream uniqueness
only quantifies over workstreams with a non-empty such key (empty names
are exempt), risk names must be non-empty after stripping, and
`dependencies` must be non-empty. -/
def codeStructValid (p : PlanD) (task : String) : Prop :=
  3 ≤ p.assumptions.length ∧
  4 ≤ p.timeline.length ∧
  (∀ ph ∈ p.timeline, ph.milestones ≠ [] ∧ ph.deliverables ≠ []) ∧
  (granularMatch task = true → 7 ≤ p.timeline.length) ∧
  4 ≤ p.workstreams.length ∧
  (∀ w ∈ p.workstreams, w.tasks ≠ [] ∧ w.owner ≠ "" ∧ w.dependencies ≠ []) ∧
  ((p.workstreams.map wsNameKey).filter (fun n => n ≠ "")).Nodup ∧
  4 ≤ p.risks.length ∧
  (∀ r ∈ p.risks, riskNameKey r ≠ "" ∧ r.impact ≠ "" ∧ r.mitigation ≠ "") ∧
  (p.risks.map riskNameKey).Nodup ∧
  3 ≤ p.metrics.length

instance (p : PlanD) (task : String) : Decidable (specStructValid p task) := by
  unfold specStructValid; infer_instance

instance (p : PlanD) (task : String) : Decidable (codeStructValid p task) := by
  unfold codeStructValid; infer_instance

/-- The violation list of the validator on a wire-shape plan (total: on
typed plans `_plan_issues` cannot raise). -/
def typedIssues (p : PlanD) (task : String) : List String :=
  match planIssues p.toJson task with
  | .ok l => l
  | .error _ => []

/-- Occurrences of a repeated (non-empty) name beyond its first
occurrence, the quantity `_plan_issues` reports `workstreams_unique`
for. -/
def dupOccurrences (seen : List String) : List String → Nat
  | [] => 0
  | n :: rest =>
    (if n ≠ "" && seen.contains n then 1 else 0) +
      dupOccurrences (if n ≠ "" then n :: seen else seen) rest

/-- `traceBlocks` of a finished run (`false` when the run did not
finish). -/
def loopBlocks (r : Except Unit (Option (LState × List Ev))) : Bool :=
  match loopTrace r with
  | some tr => traceBlocks tr
  | none => false

def exOk : Except Unit (List String) → Bool
  | .ok _ => true
  | .error _ => false

/-- Both structural checks hit by a stored plan evaluate without raising
a Python exception. -/
def checksOk (plan : Json) (task : String) : Prop :=
  exOk (mustFix plan task) = true ∧ exOk (planIssues plan task) = true

/-- Safety of a generator/refiner behavior: every document `loads` can
produce keeps the reviewer's and the validator's checks total.  (The
skeleton fallback and the empty dict are always safe; this is the only
assumption about parsed plans.) -/
def SafeLoads (loads : String → Option (List (String × Json))) (task : String) : Prop :=
  ∀ text d, loads text = some d → checksOk (.obj d) task

/-- A stored plan is safe and fails validation (its violation list is
non-empty). -/
def StateBad (task : String) (p : Option Json) : Prop :=
  checksOk (orDict p) task ∧ ∀ l, planIssues (orDict p) task = .ok l → l ≠ []

/-- A generator/refiner behavior under which no parsed plan ever
validates (and no check raises). -/
def NeverValid (loads : String → Option (List (String × Json))) (task : String) : Prop :=
  ∀ text d, loads text = some d → StateBad task (some (.obj d))

/-- Behavior whose generation responses are never parsable: the provider
always answers with empty text and nothing ever parses. -/
def exLLM : Nat → String := fun _ => ""

def exLoads : String → Option (List (String × Json)) := fun _ => none

/-- A parsed document that carries all five required keys but binds
`assumptions` to the integer 1 — structurally invalid, and `len()` of it
raises `TypeError` inside `_must_fix`/`_plan_issues`. -/
def badPlanFields : List (String × Json) :=
  [("assumptions", .num 1), ("timeline", .arr []), ("workstreams", .arr []),
   ("risks", .arr []), ("metrics", .arr [])]

/-- Behavior whose generation responses all parse to `badPlanFields`. -/
def crashLLM : Nat → String := fun _ => "{}"

def crashLoads : String → Option (List (String × Json)) := fun _ => some badPlanFields

/-- `n` complete timeline phases. -/
def okPhases (n : Nat) : List PhaseD :=
  (List.range n).map (fun i => ⟨"P" ++ toString (i + 1), ["m"], ["d"]⟩)

/-- A workstream with all required fields and the given name. -/
def okWs (nm : String) : WsD := ⟨nm, ["t"], "o", ["d"]⟩

/-- A risk with all required fields and the given name. -/
def okRisk (nm : String) : RiskD := ⟨nm, "low", "mi"⟩

/-- The granular task of the spec's worked example. -/
def cexTask : String := "Plan a 7-day onboarding itinerary"

/-- A plan meeting every invariant except timeline granularity: 5
complete phases. -/
def cexPlan5 : PlanD :=
  ⟨"obj", ["a1", "a2", "a3"], okPhases 5,
   [okWs "W1", okWs "W2", okWs "W3", okWs "W4"],
   [okRisk "r1", okRisk "r2", okRisk "r3", okRisk "r4"],
   ["k1", "k2", "k3"]⟩

/-- The same plan with 7 complete phases: fully valid for `cexTask`. -/
def cexPlan7 : PlanD :=
  ⟨"obj", ["a1", "a2", "a3"], okPhases 7,
   [okWs "W1", okWs "W2", okWs "W3", okWs "W4"],
   [okRisk "r1", okRisk "r2", okRisk "r3", okRisk "r4"],
   ["k1", "k2", "k3"]⟩

/-- A wire-shape plan whose first two workstreams both carry the empty
name (equal under case-insensitive comparison) and which meets every
check the code performs. -/
def cexPlanNoName : PlanD :=
  ⟨"obj", ["a1", "a2", "a3"], okPhases 4,
   [okWs "", okWs "", okWs "A", okWs "B"],
   [okRisk "r1", okRisk "r2", okRisk "r3", okRisk "r4"],
   ["k1", "k2", "k3"]⟩

/-- A wire-shape plan with two separately duplicated workstream names
(`research`/`Research` and `design`/`Design`). -/
def cexPlanDup : PlanD :=
  ⟨"obj", ["a1", "a2", "a3"], okPhases 4,
   [okWs "research", okWs "Research", okWs "design", okWs "Design"],
   [okRisk "r1", okRisk "r2", okRisk "r3", okRisk "r4"],
   ["k1", "k2", "k3"]⟩

/-- A wire-shape plan with exactly one duplicated workstream-name pair
(`Research`/`research`). -/
def cexPlanOnePair : PlanD :=
  ⟨"obj", ["a1", "a2", "a3"], okPhases 4,
   [okWs "Research", okWs "research", okWs "design", okWs "ops"],
   [okRisk "r1", okRisk "r2", okRisk "r3", okRisk "r4"],
   ["k1", "k2", "k3"]⟩

/-- The typed violation list computed section by section; proved below to
be exactly what `_plan_issues` returns on a wire-shape plan. -/
def phaseOut (i : Nat) : List PhaseD → List String
  | [] => []
  | ph :: rest =>
    ((if ph.milestones = [] then [phaseIssue i "_milestones_missing"] else []) ++
     (if ph.deliverables = [] then [phaseIssue i "_deliverables_missing"] else [])) ++
    phaseOut (i + 1) rest

def wsOut (i : Nat) (seen : List String) : List WsD → List String
  | [] => []
  | w :: rest =>
    ((if w.tasks = [] then [wsIssue i "_tasks_missing"] else []) ++
     (if w.owner = "" then [wsIssue i "_owner_missing"] else []) ++
     (if w.dependencies = [] then [wsIssue i "_dependencies_missing"] else []) ++
     (if wsNameKey w ≠ "" && seen.contains (wsNameKey w) then ["workstreams_unique"] else [])) ++
    wsOut (i + 1) (if wsNameKey w ≠ "" then wsNameKey w :: seen else seen) rest

def riskOut (i : Nat) (seen : List String) : List RiskD → List String
  | [] => []
  | r :: rest =>
    ((if riskNameKey r = "" then [riskIssue i "_name_missing"] else []) ++
     (if seen.contains (riskNameKey r) then ["risks_diverse"] else []) ++
     (if r.impact = "" then [riskIssue i "_impact_missing"] else []) ++
     (if r.mitigation = "" then [riskIssue i "_mitigation_missing"] else [])) ++
    riskOut (i + 1) (riskNameKey r :: seen) rest

def planOut (p : PlanD) (task : String) : List String :=
  (if p.assumptions.length < 3 then ["assumptions>=3"] else []) ++
  (if p.timeline.length < 4 then ["timeline>=4"] else phaseOut 1 p.timeline) ++
  (if granularMatch task && p.timeline.length < 7 then ["timeline_daily_breakdown_required"] else []) ++
  (if p.workstreams.length < 4 then ["workstreams>=4"] else wsOut 1 [] p.workstreams) ++
  (if p.risks.length < 4 then ["risks>=4"] else riskOut 1 [] p.risks) ++
  (if p.metrics.length < 3 then ["metrics>=3"] else [])

/-- Freedom from duplicate (non-empty) workstream-name keys relative to
the already-seen set. -/
def wsFresh (seen : List String) : List WsD → Prop
  | [] => True
  | w :: rest =>
    (wsNameKey w ≠ "" → wsNameKey w ∉ seen) ∧
    wsFresh (if wsNameKey w ≠ "" then wsNameKey w :: seen else seen) rest

/-- Freedom from duplicate risk-name keys relative to the seen set. -/
def riskFresh (seen : List String) : List RiskD → Prop
  | [] => True
  | r :: rest =>
    riskNameKey r ∉ seen ∧ riskFresh (riskNameKey r :: seen) rest

/-- The Plan Generator's result is a dict for every behavior and cursor
(the "always returns a well-typed Plan value, never an error" guarantee
at the shape level). -/
def plannerAlwaysDict : Prop :=
  ∀ (llm : Nat → String) (loads : String → Option (List (String × Json)))
    (task : String) (cur : Nat), isDict (plannerData llm loads task cur).1 = true

theorem exbind_ok {α β : Type} (x : α) (f : α → Except Unit β) :
    (Except.ok x : Except Unit α) >>= f = f x := rfl

theorem exbind_error {α β : Type} (e : Unit) (f : α → Except Unit β) :
    (Except.error e : Except Unit α) >>= f = Except.error e := rfl

theorem strDataAppend (s t : String) : (s ++ t).data = s.data ++ t.data := by
  cases s; cases t; rfl

theorem appendNeOfTake (p x t : String) (h : t.data.take p.data.length ≠ p.data) :
    p ++ x ≠ t := by
  intro he
  apply h
  rw [← he, strDataAppend]
  exact List.take_left p.data x.data

theorem phaseIssue_ne_daily (i : Nat) (s : String) :
    phaseIssue i s ≠ "timeline_daily_breakdown_required" :=
  appendNeOfTake _ _ _ (by decide)

theorem wsIssue_ne_daily (i : Nat) (s : String) :
    wsIssue i s ≠ "timeline_daily_breakdown_required" :=
  appendNeOfTake _ _ _ (by decide)

theorem riskIssue_ne_daily (i : Nat) (s : String) :
    riskIssue i s ≠ "timeline_daily_breakdown_required" :=
  appendNeOfTake _ _ _ (by decide)

theorem phaseIssue_ne_unique (i : Nat) (s : String) :
    phaseIssue i s ≠ "workstreams_unique" :=
  appendNeOfTake _ _ _ (by decide)

theorem wsIssue_ne_unique (i : Nat) (s : String) :
    wsIssue i s ≠ "workstreams_unique" :=
  appendNeOfTake _ _ _ (by decide)

theorem riskIssue_ne_unique (i : Nat) (s : String) :
    riskIssue i s ≠ "workstreams_unique" :=
  appendNeOfTake _ _ _ (by decide)

theorem lenCheck_mem (v : Json) (n : Nat) (c : String) (l : List String)
    (h : lenCheck v n c = .ok l) : ∀ x ∈ l, x = c := by
  unfold lenCheck at h
  by_cases hv : pyTruthy v
  · simp only [hv, Bool.not_true, Bool.false_eq_true, if_false] at h
    cases hl : pyLenE v with
    | error e => rw [hl, exbind_error] at h; exact absurd h (by simp)
    | ok k =>
      rw [hl, exbind_ok] at h
      simp only [Except.ok.injEq] at h
      subst h
      by_cases hk : k < n <;> simp [hk]
  · simp only [hv, Bool.not_false, if_true, Bool.false_eq_true] at h
    simp only [Except.ok.injEq] at h
    subst h
    simp

theorem phaseChecks_mem (x : String) :
    ∀ (i : Nat) (l : List Json), x ∈ phaseChecks i l → ∃ j s, x = phaseIssue j s := by
  intro i l
  induction l generalizing i with
  | nil => intro hx; simp [phaseChecks] at hx
  | cons ph rest ih =>
    intro hx
    unfold phaseChecks at hx
    rw [List.mem_append] at hx
    rcases hx with hx | hx
    · cases ph with
      | obj pfs =>
        rcases List.mem_append.mp hx with hx | hx
        · split at hx
          · exact ⟨i, _, List.mem_singleton.mp hx⟩
          · simp at hx
        · split at hx
          · exact ⟨i, _, List.mem_singleton.mp hx⟩
          · simp at hx
      | null => exact ⟨i, _, List.mem_singleton.mp hx⟩
      | bool b => exact ⟨i, _, List.mem_singleton.mp hx⟩
      | num n => exact ⟨i, _, List.mem_singleton.mp hx⟩
      | str s => exact ⟨i, _, List.mem_singleton.mp hx⟩
      | arr a => exact ⟨i, _, List.mem_singleton.mp hx⟩
    · exact ih (i + 1) hx

theorem wsChecks_mem (x : String) :
    ∀ (l : List Json) (i : Nat) (seen : List String) (out : List String),
      wsChecks i seen l = .ok out → x ∈ out →
      (∃ j s, x = wsIssue j s) ∨ x = "workstreams_unique" := by
  intro l
  induction l with
  | nil =>
    intro i seen out h hx
    simp only [wsChecks, Except.ok.injEq] at h
    subst h; simp at hx
  | cons ws rest ih =>
    intro i seen out h hx
    cases ws with
    | obj wfs =>
      unfold wsChecks at h
      dsimp only at h
      cases hnm : orStrStripLowerE (objGet wfs "name") with
      | error e => rw [hnm, exbind_error] at h; exact absurd h (by simp)
      | ok nm =>
        rw [hnm, exbind_ok] at h
        cases hrest : wsChecks (i + 1) (if nm ≠ "" then nm :: seen else seen) rest with
        | error e => rw [hrest, exbind_error] at h; exact absurd h (by simp)
        | ok restIssues =>
          rw [hrest, exbind_ok] at h
          simp only [Except.ok.injEq] at h
          subst h
          rcases List.mem_append.mp hx with hx | hx
          · rcases List.mem_append.mp hx with hx | hx
            · rcases List.mem_append.mp hx with hx | hx
              · rcases List.mem_append.mp hx with hx | hx
                · split at hx
                  · exact Or.inl ⟨i, _, List.mem_singleton.mp hx⟩
                  · simp at hx
                · split at hx
                  · exact Or.inl ⟨i, _, List.mem_singleton.mp hx⟩
                  · simp at hx
              · split at hx
                · exact Or.inl ⟨i, _, List.mem_singleton.mp hx⟩
                · simp at hx
            · split at hx
              · exact Or.inr (List.mem_singleton.mp hx)
              · simp at hx
          · exact ih (i + 1) _ restIssues hrest hx
    | null =>
      unfold wsChecks at h
      dsimp only at h
      cases hrest : wsChecks (i + 1) seen rest with
      | error e => rw [hrest, exbind_error] at h; exact absurd h (by simp)
      | ok restIssues =>
        rw [hrest, exbind_ok] at h
        simp only [Except.ok.injEq] at h
        subst h
        rcases List.mem_cons.mp hx with hx | hx
        · exact Or.inl ⟨i, _, hx⟩
        · exact ih (i + 1) seen restIssues hrest hx
    | bool b =>
      unfold wsChecks at h
      dsimp only at h
      cases hrest : wsChecks (i + 1) seen rest with
      | error e => rw [hrest, exbind_error] at h; exact absurd h (by simp)
      | ok restIssues =>
        rw [hrest, exbind_ok] at h
        simp only [Except.ok.injEq] at h
        subst h
        rcases List.mem_cons.mp hx with hx | hx
        · exact Or.inl ⟨i, _, hx⟩
        · exact ih (i + 1) seen restIssues hrest hx
    | num n =>
      unfold wsChecks at h
      dsimp only at h
      cases hrest : wsChecks (i + 1) seen rest with
      | error e => rw [hrest, exbind_error] at h; exact absurd h (by simp)
      | ok restIssues =>
        rw [hrest, exbind_ok] at h
        simp only [Except.ok.injEq] at h
        subst h
        rcases List.mem_cons.mp hx with hx | hx
        · exact Or.inl ⟨i, _, hx⟩
        · exact ih (i + 1) seen restIssues hrest hx
    | str s =>
      unfold wsChecks at h
      dsimp only at h
      cases hrest : wsChecks (i + 1) seen rest with
      | error e => rw [hrest, exbind_error] at h; exact absurd h (by simp)
      | ok restIssues =>
        rw [hrest, exbind_ok] at h
        simp only [Except.ok.injEq] at h
        subst h
        rcases List.mem_cons.mp hx with hx | hx
        · exact Or.inl ⟨i, _, hx⟩
        · exact ih (i + 1) seen restIssues hrest hx
    | arr a =>
      unfold wsChecks at h
      dsimp only at h
      cases hrest : wsChecks (i + 1) seen rest with
      | error e => rw [hrest, exbind_error] at h; exact absurd h (by simp)
      | ok restIssues =>
        rw [hrest, exbind_ok] at h
        simp only [Except.ok.injEq] at h
        subst h
        rcases List.mem_cons.mp hx with hx | hx
        · exact Or.inl ⟨i, _, hx⟩
        · exact ih (i + 1) seen restIssues hrest hx

theorem riskChecks_mem (x : String) :
    ∀ (l : List Json) (i : Nat) (seen : List String) (out : List String),
      riskChecks i seen l = .ok out → x ∈ out →
      (∃ j s, x = riskIssue j s) ∨ x = "risks_diverse" := by
  intro l
  induction l with
  | nil =>
    intro i seen out h hx
    simp only [riskChecks, Except.ok.injEq] at h
    subst h; simp at hx
  | cons r rest ih =>
    intro i seen out h hx
    cases r
    case obj rfs =>
      unfold riskChecks at h
      dsimp only at h
      cases hnm : orStrStripLowerE (objGet rfs "risk") with
      | error e => rw [hnm, exbind_error] at h; exact absurd h (by simp)
      | ok nm =>
        rw [hnm, exbind_ok] at h
        cases hrest : riskChecks (i + 1) (nm :: seen) rest with
        | error e => rw [hrest, exbind_error] at h; exact absurd h (by simp)
        | ok restIssues =>
          rw [hrest, exbind_ok] at h
          simp only [Except.ok.injEq] at h
          subst h
          rcases List.mem_append.mp hx with hx | hx
          · rcases List.mem_append.mp hx with hx | hx
            · rcases List.mem_append.mp hx with hx | hx
              · rcases List.mem_append.mp hx with hx | hx
                · split at hx
                  · exact Or.inl ⟨i, _, List.mem_singleton.mp hx⟩
                  · simp at hx
                · split at hx
                  · exact Or.inr (List.mem_singleton.mp hx)
                  · simp at hx
              · split at hx
                · exact Or.inl ⟨i, _, List.mem_singleton.mp hx⟩
                · simp at hx
            · split at hx
              · exact Or.inl ⟨i, _, List.mem_singleton.mp hx⟩
              · simp at hx
          · exact ih (i + 1) _ restIssues hrest hx
    all_goals
      unfold riskChecks at h
      dsimp only at h
      cases hrest : riskChecks (i + 1) seen rest with
      | error e => rw [hrest, exbind_error] at h; exact absurd h (by simp)
      | ok restIssues =>
        rw [hrest, exbind_ok] at h
        simp only [Except.ok.injEq] at h
        subst h
        rcases List.mem_cons.mp hx with hx | hx
        · exact Or.inl ⟨i, _, hx⟩
        · exact ih (i + 1) seen restIssues hrest hx

theorem timelineSection_mem (fs : List (String × Json)) (tlen : Nat) (tIss : List String)
    (h : timelineSection fs = .ok (tlen, tIss)) :
    pyLenE (pyOr (objGet fs "timeline") (.arr [])) = .ok tlen ∧
    ∀ x ∈ tIss, x = "timeline>=4" ∨ ∃ j s, x = phaseIssue j s := by
  unfold timelineSection at h
  dsimp only at h
  cases ht : pyLenE (pyOr (objGet fs "timeline") (.arr [])) with
  | error e => rw [ht, exbind_error] at h; exact absurd h (by simp)
  | ok k =>
    rw [ht, exbind_ok] at h
    simp only [Except.ok.injEq, Prod.mk.injEq] at h
    obtain ⟨hk, hiss⟩ := h
    subst hk
    constructor
    · rfl
    · intro x hx
      rw [← hiss] at hx
      split at hx
      · exact Or.inl (List.mem_singleton.mp hx)
      · exact Or.inr (phaseChecks_mem x 1 _ hx)

theorem wsSection_mem (fs : List (String × Json)) (wIss : List String)
    (h : wsSection fs = .ok wIss) :
    ∀ x ∈ wIss, (∃ j s, x = wsIssue j s) ∨ x = "workstreams_unique" ∨ x = "workstreams>=4" := by
  unfold wsSection at h
  dsimp only at h
  cases hw : pyLenE (pyOr (objGet fs "workstreams") (.arr [])) with
  | error e => rw [hw, exbind_error] at h; exact absurd h (by simp)
  | ok wlen =>
    rw [hw, exbind_ok] at h
    intro x hx
    split at h
    · simp only [Except.ok.injEq] at h
      subst h
      exact Or.inr (Or.inr (List.mem_singleton.mp hx))
    · rcases wsChecks_mem x _ _ _ _ h hx with h1 | h1
      · exact Or.inl h1
      · exact Or.inr (Or.inl h1)

theorem riskSection_mem (fs : List (String × Json)) (rIss : List String)
    (h : riskSection fs = .ok rIss) :
    ∀ x ∈ rIss, (∃ j s, x = riskIssue j s) ∨ x = "risks_diverse" ∨ x = "risks>=4" := by
  unfold riskSection at h
  dsimp only at h
  cases hr : pyLenE (pyOr (objGet fs "risks") (.arr [])) with
  | error e => rw [hr, exbind_error] at h; exact absurd h (by simp)
  | ok rlen =>
    rw [hr, exbind_ok] at h
    intro x hx
    split at h
    · simp only [Except.ok.injEq] at h
      subst h
      exact Or.inr (Or.inr (List.mem_singleton.mp hx))
    · rcases riskChecks_mem x _ _ _ _ h hx with h1 | h1
      · exact Or.inl h1
      · exact Or.inr (Or.inl h1)

theorem planIssues_obj_decomp (fs : List (String × Json)) (task : String) (issues : List String)
    (hne : fs ≠ []) (h : planIssues (.obj fs) task = .ok issues) :
    ∃ a tlen tIss wIss rIss m,
      lenCheck (objGet fs "assumptions") 3 "assumptions>=3" = .ok a ∧
      timelineSection fs = .ok (tlen, tIss) ∧
      wsSection fs = .ok wIss ∧
      riskSection fs = .ok rIss ∧
      lenCheck (objGet fs "metrics") 3 "metrics>=3" = .ok m ∧
      issues = a ++ tIss ++
        (if granularMatch task && tlen < 7 then ["timeline_daily_breakdown_required"] else []) ++
        wIss ++ rIss ++ m := by
  have hne' : fs.isEmpty = false := by
    cases fs with
    | nil => exact absurd rfl hne
    | cons a as => rfl
  unfold planIssues at h
  simp only [isDict, pyTruthy, hne', Bool.not_true, Bool.not_false, Bool.false_or,
    Bool.or_false, if_false, Bool.false_eq_true] at h
  cases ha : lenCheck (objGet fs "assumptions") 3 "assumptions>=3" with
  | error e => rw [ha, exbind_error] at h; exact absurd h (by simp)
  | ok a =>
  rw [ha, exbind_ok] at h
  cases ht : timelineSection fs with
  | error e => rw [ht, exbind_error] at h; exact absurd h (by simp)
  | ok tp =>
  rw [ht, exbind_ok] at h
  cases hw : wsSection fs with
  | error e => rw [hw, exbind_error] at h; exact absurd h (by simp)
  | ok wIss =>
  rw [hw, exbind_ok] at h
  cases hr : riskSection fs with
  | error e => rw [hr, exbind_error] at h; exact absurd h (by simp)
  | ok rIss =>
  rw [hr, exbind_ok] at h
  cases hm : lenCheck (objGet fs "metrics") 3 "metrics>=3" with
  | error e => rw [hm, exbind_error] at h; exact absurd h (by simp)
  | ok m =>
  rw [hm, exbind_ok] at h
  simp only [Except.ok.injEq] at h
  exact ⟨a, tp.1, tp.2, wIss, rIss, m, rfl, rfl, rfl, rfl, rfl, h.symm⟩

/-- Claim C10: for every plan input that is not a dict, or is the empty
dict, the Schema Validator returns exactly the single-element violation
list `["plan_missing_or_not_dict"]` — one violation, not the five
per-field minimum violations — and performs no per-field checks. -/
theorem C10_plan_missing_short_circuit (plan : Json) (task : String)
    (h : isDict plan = false ∨ plan = Json.obj []) :
    planIssues plan task = .ok ["plan_missing_or_not_dict"] := by
  rcases h with h | h
  · unfold planIssues
    rw [h]
    rfl
  · subst h
    rfl

theorem C10_plan_missing_short_circuit_witness :
    (isDict (Json.obj []) = false ∨ Json.obj [] = Json.obj []) ∧
    planIssues (Json.obj []) "some task" = .ok ["plan_missing_or_not_dict"] :=
  ⟨Or.inr rfl, C10_plan_missing_short_circuit (Json.obj []) "some task" (Or.inr rfl)⟩

/-- Claim C8: whenever the Corrective Refiner's generation response
cannot be parsed as a structured document (no brace-delimited slice, or
`json.loads` fails on it), `reviewer_node` stores the input plan
unchanged — value-for-value equal, never a fabricated skeleton, and the
`try/except` means no error escapes. -/
theorem C8_refiner_passthrough (loads : String → Option (List (String × Json)))
    (out : String) (plan : Json)
    (h : reviewerParsed loads out = none) :
    reviewerFix loads out plan = plan := by
  unfold reviewerParsed at h
  unfold reviewerFix
  cases hf : pyFind out '{' with
  | none => rfl
  | some start =>
    cases hr : pyRFind out '}' with
    | none => rfl
    | some stop =>
      rw [hf, hr] at h
      dsimp only at h ⊢
      rw [h]

theorem C8_refiner_passthrough_witness :
    reviewerParsed exLoads "no braces here" = none ∧
    reviewerFix exLoads "no braces here" (skeletonPlan "t") = skeletonPlan "t" :=
  ⟨rfl, C8_refiner_passthrough exLoads "no braces here" (skeletonPlan "t") rfl⟩

/-- Claim C7: when every parsing attempt of the Plan Generator fails (the
response is unparsable or lacks one of the five required keys, on the
initial attempt and both retries), `planner_node` returns exactly the
minimal-skeleton plan — `objective = task`,
`assumptions = ["TBD","TBD","TBD"]`, empty
`timeline`/`workstreams`/`risks`/`metrics` — after consuming exactly the
three generation calls; and for every behavior whatsoever the planner
returns a dict-shaped plan (total function: it never raises). -/
theorem C7_planner_fallback_skeleton (llm : Nat → String)
    (loads : String → Option (List (String × Json))) (task : String) (cur : Nat)
    (h1 : planAttempt loads (pyStrip (llm cur)) = none)
    (h2 : planAttempt loads (pyStrip (llm (cur + 1))) = none)
    (h3 : planAttempt loads (pyStrip (llm (cur + 2))) = none) :
    plannerData llm loads task cur = (skeletonPlan task, cur + 3) ∧ plannerAlwaysDict := by
  constructor
  · unfold plannerData safeCallPlanner
    rw [h1]
    unfold safeCallRetry
    rw [h2]
    unfold safeCallRetry
    have h3' : planAttempt loads (pyStrip (llm (cur + 1 + 1))) = none := by
      have : cur + 1 + 1 = cur + 2 := by omega
      rw [this]; exact h3
    rw [h3']
    unfold safeCallRetry
    have : cur + 1 + 1 + 1 = cur + 3 := by omega
    rw [this]
  · intro llm' loads' task' cur'
    unfold plannerData
    rcases hs : safeCallPlanner llm' loads' cur' with ⟨d, c⟩
    cases d with
    | none => rfl
    | some l => rfl

theorem C7_planner_fallback_skeleton_witness :
    planAttempt exLoads (pyStrip (exLLM 0)) = none ∧
    planAttempt exLoads (pyStrip (exLLM 1)) = none ∧
    planAttempt exLoads (pyStrip (exLLM 2)) = none ∧
    (plannerData exLLM exLoads "Plan a hackathon" 0 =
      (skeletonPlan "Plan a hackathon", 0 + 3) ∧ plannerAlwaysDict) :=
  ⟨rfl, rfl, rfl,
    C7_planner_fallback_skeleton exLLM exLoads "Plan a hackathon" 0 rfl rfl rfl⟩

/-- Claim C5, counterexample: on the spec's own worked example — task
`"Plan a 7-day onboarding itinerary"` and a plan with only 5 complete
timeline phases (all other invariants met) — the validator's output is
`["timeline_daily_breakdown_required"]`: the violation code named by the
claim, `timeline_granularity_required`, is never produced (the granular
rule fires under the code name `timeline_daily_breakdown_required`). -/
theorem C5_granularity_counterexample :
    planIssues (.obj cexPlan5.fields) cexTask = .ok ["timeline_daily_breakdown_required"] ∧
    "timeline_granularity_required" ∉ ["timeline_daily_breakdown_required"] := by
  constructor
  · rfl
  · decide

/-- Claim C5 (amended): for every present, non-empty plan document and
every task matching the granular-schedule tokens, the validator's output
contains the code `timeline_daily_breakdown_required` (not
`timeline_granularity_required` as the claim stated) exactly when the
plan's timeline has fewer than 7 entries. -/
theorem C5_granularity_amended (fs : List (String × Json)) (task : String)
    (issues : List String) (n : Nat) (hne : fs ≠ [])
    (hgr : granularMatch task = true)
    (hok : planIssues (.obj fs) task = .ok issues)
    (hlen : pyLenE (pyOr (objGet fs "timeline") (.arr [])) = .ok n) :
    "timeline_daily_breakdown_required" ∈ issues ↔ n < 7 := by
  obtain ⟨a, tlen, tIss, wIss, rIss, m, ha, ht, hw, hr, hm, heq⟩ :=
    planIssues_obj_decomp fs task issues hne hok
  obtain ⟨hlen', htmem⟩ := timelineSection_mem fs tlen tIss ht
  rw [hlen] at hlen'
  injection hlen' with hn
  subst hn
  constructor
  · intro hmem
    rw [heq] at hmem
    simp only [List.mem_append] at hmem
    rcases hmem with ((((hx | hx) | hx) | hx) | hx) | hx
    · exact absurd (lenCheck_mem _ _ _ _ ha _ hx) (by decide)
    · rcases htmem _ hx with h1 | ⟨j, s, hjs⟩
      · exact absurd h1 (by decide)
      · exact absurd hjs.symm (phaseIssue_ne_daily j s)
    · split at hx
      · next hcond =>
        rw [Bool.and_eq_true] at hcond
        simpa using of_decide_eq_true hcond.2
      · simp at hx
    · rcases wsSection_mem _ _ hw _ hx with ⟨j, s, hjs⟩ | h1 | h1
      · exact absurd hjs.symm (wsIssue_ne_daily j s)
      · exact absurd h1 (by decide)
      · exact absurd h1 (by decide)
    · rcases riskSection_mem _ _ hr _ hx with ⟨j, s, hjs⟩ | h1 | h1
      · exact absurd hjs.symm (riskIssue_ne_daily j s)
      · exact absurd h1 (by decide)
      · exact absurd h1 (by decide)
    · exact absurd (lenCheck_mem _ _ _ _ hm _ hx) (by decide)
  · intro hlt
    rw [heq]
    simp only [List.mem_append]
    refine Or.inl (Or.inl (Or.inl (Or.inr ?_)))
    rw [hgr]
    simp [hlt]

theorem C5_granularity_amended_witness :
    cexPlan5.fields ≠ [] ∧
    granularMatch cexTask = true ∧
    planIssues (.obj cexPlan5.fields) cexTask = .ok ["timeline_daily_breakdown_required"] ∧
    pyLenE (pyOr (objGet cexPlan5.fields "timeline") (.arr [])) = .ok 5 ∧
    ("timeline_daily_breakdown_required" ∈ ["timeline_daily_breakdown_required"] ↔ 5 < 7) ∧
    planIssues (.obj cexPlan7.fields) cexTask = .ok [] :=
  ⟨by simp [PlanD.fields], by decide, rfl, rfl,
    C5_granularity_amended cexPlan5.fields cexTask ["timeline_daily_breakdown_required"] 5
      (by simp [PlanD.fields]) (by decide) rfl rfl,
    rfl⟩

theorem truthyStr (s : String) : pyTruthy (.str s) = !decide (s = "") := by
  by_cases h : s = ""
  · subst h; rfl
  · have he : s.isEmpty = false := by
      rw [← Bool.not_eq_true]
      simp [String.isEmpty_iff, h]
    simp [pyTruthy, he, h]

theorem truthyArrStr (l : List String) : pyTruthy (.arr (l.map Json.str)) = !decide (l = []) := by
  cases l <;> simp [pyTruthy]

theorem orStrStripLowerE_str (s : String) :
    orStrStripLowerE (.str s) = .ok (pyLower (pyStrip s)) := by
  unfold orStrStripLowerE
  by_cases h : s = ""
  · subst h; rfl
  · rw [truthyStr]
    simp [h]

theorem phaseChecks_typed (l : List PhaseD) : ∀ i, phaseChecks i (l.map PhaseD.toJson) = phaseOut i l := by
  induction l with
  | nil => intro i; rfl
  | cons ph rest ih =>
    intro i
    obtain ⟨lb, ms, dl⟩ := ph
    simp only [List.map_cons]
    unfold phaseChecks phaseOut
    dsimp only [PhaseD.toJson]
    rw [ih]
    cases ms <;> cases dl <;>
      simp [objGet, pyTruthy, isList, List.find?]

theorem wsChecks_typed (l : List WsD) : ∀ i seen, wsChecks i seen (l.map WsD.toJson) = .ok (wsOut i seen l) := by
  induction l with
  | nil => intro i seen; rfl
  | cons w rest ih =>
    intro i seen
    obtain ⟨nm, ts, ow, dp⟩ := w
    simp only [List.map_cons]
    unfold wsChecks wsOut
    dsimp only [WsD.toJson]
    have hname : objGet [("name", Json.str nm), ("tasks", Json.arr (ts.map Json.str)),
        ("owner", Json.str ow), ("dependencies", Json.arr (dp.map Json.str))] "name" =
        Json.str nm := by simp [objGet, List.find?]
    rw [hname, orStrStripLowerE_str, exbind_ok, ih, exbind_ok]
    have hkey : wsNameKey ⟨nm, ts, ow, dp⟩ = pyLower (pyStrip nm) := rfl
    rw [hkey]
    cases ts <;> cases dp <;>
      simp [objGet, List.find?, pyTruthy, isList, String.isEmpty_iff]

theorem riskChecks_typed (l : List RiskD) : ∀ i seen, riskChecks i seen (l.map RiskD.toJson) = .ok (riskOut i seen l) := by
  induction l with
  | nil => intro i seen; rfl
  | cons r rest ih =>
    intro i seen
    obtain ⟨nm, im, mi⟩ := r
    simp only [List.map_cons]
    unfold riskChecks riskOut
    dsimp only [RiskD.toJson]
    have hname : objGet [("risk", Json.str nm), ("impact", Json.str im),
        ("mitigation", Json.str mi)] "risk" = Json.str nm := by simp [objGet, List.find?]
    rw [hname, orStrStripLowerE_str, exbind_ok, ih, exbind_ok]
    have hkey : riskNameKey ⟨nm, im, mi⟩ = pyLower (pyStrip nm) := rfl
    rw [hkey]
    simp [objGet, List.find?, pyTruthy, String.isEmpty_iff]

theorem lenCheck_arrStr (l : List String) (n : Nat) (c : String) (hn : 0 < n) :
    lenCheck (.arr (l.map .str)) n c = .ok (if l.length < n then [c] else []) := by
  unfold lenCheck
  cases l with
  | nil => simp [pyTruthy, hn]
  | cons a as => simp [pyTruthy, pyLenE, exbind_ok]

theorem pyOr_arr (l : List Json) : pyOr (.arr l) (.arr []) = .arr l := by
  cases l <;> simp [pyOr, pyTruthy]

theorem objGet_fields_assumptions (p : PlanD) :
    objGet p.fields "assumptions" = .arr (p.assumptions.map .str) := by
  simp [PlanD.fields, objGet, List.find?]

theorem objGet_fields_timeline (p : PlanD) :
    objGet p.fields "timeline" = .arr (p.timeline.map PhaseD.toJson) := by
  simp [PlanD.fields, objGet, List.find?]

theorem objGet_fields_workstreams (p : PlanD) :
    objGet p.fields "workstreams" = .arr (p.workstreams.map WsD.toJson) := by
  simp [PlanD.fields, objGet, List.find?]

theorem objGet_fields_risks (p : PlanD) :
    objGet p.fields "risks" = .arr (p.risks.map RiskD.toJson) := by
  simp [PlanD.fields, objGet, List.find?]

theorem objGet_fields_metrics (p : PlanD) :
    objGet p.fields "metrics" = .arr (p.metrics.map .str) := by
  simp [PlanD.fields, objGet, List.find?]

theorem timelineSection_typed (p : PlanD) :
    timelineSection p.fields =
      .ok (p.timeline.length,
        if p.timeline.length < 4 then ["timeline>=4"] else phaseOut 1 p.timeline) := by
  unfold timelineSection
  dsimp only
  rw [objGet_fields_timeline, pyOr_arr]
  simp [pyLenE, pyElems, exbind_ok, phaseChecks_typed]

theorem wsSection_typed (p : PlanD) :
    wsSection p.fields =
      .ok (if p.workstreams.length < 4 then ["workstreams>=4"] else wsOut 1 [] p.workstreams) := by
  unfold wsSection
  dsimp only
  rw [objGet_fields_workstreams, pyOr_arr]
  by_cases h4 : p.workstreams.length < 4
  · simp [pyLenE, exbind_ok, h4]
  · simp [pyLenE, pyElems, exbind_ok, h4, wsChecks_typed]

theorem riskSection_typed (p : PlanD) :
    riskSection p.fields =
      .ok (if p.risks.length < 4 then ["risks>=4"] else riskOut 1 [] p.risks) := by
  unfold riskSection
  dsimp only
  rw [objGet_fields_risks, pyOr_arr]
  by_cases h4 : p.risks.length < 4
  · simp [pyLenE, exbind_ok, h4]
  · simp [pyLenE, pyElems, exbind_ok, h4, riskChecks_typed]

theorem planIssues_typed (p : PlanD) (task : String) :
    planIssues p.toJson task = .ok (planOut p task) := by
  show planIssues (.obj p.fields) task = _
  unfold planIssues
  have hne : p.fields.isEmpty = false := rfl
  simp only [isDict, pyTruthy, hne, Bool.not_true, Bool.not_false, Bool.false_or,
    Bool.or_false, if_false, Bool.false_eq_true]
  rw [objGet_fields_assumptions, lenCheck_arrStr _ 3 _ (by omega), exbind_ok,
    timelineSection_typed, exbind_ok, wsSection_typed, exbind_ok,
    riskSection_typed, exbind_ok, objGet_fields_metrics,
    lenCheck_arrStr _ 3 _ (by omega), exbind_ok]
  rfl

theorem contains_iff (l : List String) (a : String) : l.contains a = true ↔ a ∈ l :=
  List.elem_iff

theorem if_singleton_nil (c : Prop) [Decidable c] (x : String) :
    (if c then [x] else []) = [] ↔ ¬c := by
  split <;> simp [*]

theorem if_cons_else (c : Prop) [Decidable c] (x : String) (l : List String) :
    (if c then [x] else l) = [] ↔ ¬c ∧ l = [] := by
  split <;> simp [*]

theorem phaseOut_nil_iff (l : List PhaseD) :
    ∀ i, phaseOut i l = [] ↔ ∀ ph ∈ l, ph.milestones ≠ [] ∧ ph.deliverables ≠ [] := by
  induction l with
  | nil => intro i; simp [phaseOut]
  | cons ph rest ih =>
    intro i
    unfold phaseOut
    simp only [List.append_eq_nil, if_singleton_nil, ih (i + 1), List.forall_mem_cons]
    try tauto

theorem wsOut_nil_iff (l : List WsD) :
    ∀ i seen, wsOut i seen l = [] ↔
      (∀ w ∈ l, w.tasks ≠ [] ∧ w.owner ≠ "" ∧ w.dependencies ≠ []) ∧ wsFresh seen l := by
  induction l with
  | nil => intro i seen; simp [wsOut, wsFresh]
  | cons w rest ih =>
    intro i seen
    unfold wsOut wsFresh
    simp only [List.append_eq_nil, if_singleton_nil, ih (i + 1), List.forall_mem_cons,
      Bool.and_eq_true, decide_eq_true_eq, not_and, contains_iff, Bool.not_eq_true]
    tauto

theorem riskOut_nil_iff (l : List RiskD) :
    ∀ i seen, riskOut i seen l = [] ↔
      (∀ r ∈ l, riskNameKey r ≠ "" ∧ r.impact ≠ "" ∧ r.mitigation ≠ "") ∧ riskFresh seen l := by
  induction l with
  | nil => intro i seen; simp [riskOut, riskFresh]
  | cons r rest ih =>
    intro i seen
    unfold riskOut riskFresh
    simp only [List.append_eq_nil, if_singleton_nil, ih (i + 1), List.forall_mem_cons,
      contains_iff, Bool.not_eq_true]
    tauto

theorem wsFresh_iff (l : List WsD) :
    ∀ seen, wsFresh seen l ↔
      (((l.map wsNameKey).filter (fun n => n ≠ "")).Nodup ∧
       ∀ n ∈ (l.map wsNameKey).filter (fun n => n ≠ ""), n ∉ seen) := by
  induction l with
  | nil => intro seen; simp [wsFresh]
  | cons w rest ih =>
    intro seen
    unfold wsFresh
    by_cases hnm : wsNameKey w = ""
    · rw [if_neg (by simp [hnm]), ih seen]
      simp only [List.map_cons, List.filter_cons, hnm]
      rw [if_neg (by simp)]
      tauto
    · rw [if_pos hnm, ih (wsNameKey w :: seen)]
      simp only [List.map_cons, List.filter_cons]
      rw [if_pos (by simp [hnm])]
      simp only [List.nodup_cons, List.mem_cons, not_or, forall_eq_or_imp]
      constructor
      · rintro ⟨h1, h2, h3⟩
        refine ⟨⟨fun hmem => ((h3 _ hmem).1 rfl).elim, h2⟩, h1 hnm, fun n hn => (h3 n hn).2⟩
      · rintro ⟨⟨h1, h2⟩, h3, h4⟩
        exact ⟨fun _ => h3, h2, fun n hn => ⟨fun he => h1 (he ▸ hn), h4 n hn⟩⟩

theorem riskFresh_iff (l : List RiskD) :
    ∀ seen, riskFresh seen l ↔
      ((l.map riskNameKey).Nodup ∧ ∀ n ∈ l.map riskNameKey, n ∉ seen) := by
  induction l with
  | nil => intro seen; simp [riskFresh]
  | cons r rest ih =>
    intro seen
    unfold riskFresh
    rw [ih (riskNameKey r :: seen)]
    simp only [List.map_cons, List.nodup_cons, List.mem_cons, not_or, forall_eq_or_imp]
    constructor
    · rintro ⟨h1, h2, h3⟩
      refine ⟨⟨fun hmem => ((h3 _ hmem).1 rfl).elim, h2⟩, h1, fun n hn => (h3 n hn).2⟩
    · rintro ⟨⟨h1, h2⟩, h3, h4⟩
      exact ⟨h3, h2, fun n hn => ⟨fun he => h1 (he ▸ hn), h4 n hn⟩⟩

/-- Claim C3 (amended): over wire-shape plan documents, the Schema
Validator returns the empty violation list if and only if: assumptions
length >= 3; timeline length >= 4 with every phase carrying non-empty
milestones and deliverables sequences; the granular-schedule timeline
requirement when applicable; workstreams length >= 4 with non-empty
tasks/owner/dependencies and names unique under case-insensitive
comparison of the whitespace-stripped name, enforced only among
workstreams whose stripped name is non-empty; risks length >= 4 with
non-empty (post-strip) risk names unique under the same comparison and
non-empty impact/mitigation; metrics length >= 3. -/
theorem C3_structural_iff_amended (p : PlanD) (task : String) :
    planIssues p.toJson task = .ok [] ↔ codeStructValid p task := by
  rw [planIssues_typed]
  simp only [Except.ok.injEq]
  unfold planOut codeStructValid
  simp only [List.append_eq_nil, if_singleton_nil, if_cons_else, Bool.and_eq_true,
    decide_eq_true_eq, not_and, Nat.not_lt, phaseOut_nil_iff, wsOut_nil_iff, riskOut_nil_iff,
    wsFresh_iff, riskFresh_iff, List.not_mem_nil, not_false_iff, implies_true, and_true]
  tauto

theorem count_if_singleton_ne (c : Prop) [Decidable c] (x a : String) (h : x ≠ a) :
    List.count a (if c then [x] else []) = 0 := by
  split <;> simp [List.count_cons, h, List.count_nil]

theorem count_if_singleton_eq (c : Prop) [Decidable c] (a : String) :
    List.count a (if c then [a] else []) = if c then 1 else 0 := by
  split <;> simp

theorem phaseOut_count_unique (l : List PhaseD) (i : Nat) :
    List.count "workstreams_unique" (phaseOut i l) = 0 := by
  rw [List.count_eq_zero]
  intro hmem
  rw [← phaseChecks_typed] at hmem
  obtain ⟨j, s, hjs⟩ := phaseChecks_mem _ _ _ hmem
  exact phaseIssue_ne_unique j s hjs.symm

theorem riskOut_count_unique (l : List RiskD) (i : Nat) (seen : List String) :
    List.count "workstreams_unique" (riskOut i seen l) = 0 := by
  rw [List.count_eq_zero]
  intro hmem
  rcases riskChecks_mem "workstreams_unique" (l.map RiskD.toJson) i seen _
      (riskChecks_typed l i seen) hmem with ⟨j, s, hjs⟩ | h1
  · exact riskIssue_ne_unique j s hjs.symm
  · exact absurd h1 (by decide)

theorem wsOut_count_unique (l : List WsD) :
    ∀ i seen, List.count "workstreams_unique" (wsOut i seen l) =
      dupOccurrences seen (l.map wsNameKey) := by
  induction l with
  | nil => intro i seen; simp [wsOut, dupOccurrences]
  | cons w rest ih =>
    intro i seen
    unfold wsOut dupOccurrences
    simp only [List.count_append, ih (i + 1)]
    rw [count_if_singleton_ne _ _ _ (wsIssue_ne_unique i "_tasks_missing"),
      count_if_singleton_ne _ _ _ (wsIssue_ne_unique i "_owner_missing"),
      count_if_singleton_ne _ _ _ (wsIssue_ne_unique i "_dependencies_missing"),
      count_if_singleton_eq]
    simp [List.map_cons]

/-- Claim C6 (amended): for every wire-shape plan with at least 4
workstreams, the validator's output contains `workstreams_unique` once
per workstream (beyond the first) whose stripped lower-cased non-empty
name repeats an earlier one — so exactly once for exactly one duplicated
pair, but once per repeat occurrence in general, not once overall. -/
theorem C6_unique_count_amended (p : PlanD) (task : String) (h4 : 4 ≤ p.workstreams.length) :
    List.count "workstreams_unique" (typedIssues p task) =
      dupOccurrences [] (p.workstreams.map wsNameKey) := by
  unfold typedIssues
  rw [planIssues_typed]
  dsimp only
  unfold planOut
  simp only [List.count_append]
  rw [if_neg (by omega : ¬ p.workstreams.length < 4), wsOut_count_unique]
  rw [count_if_singleton_ne _ _ _ (by decide : "assumptions>=3" ≠ "workstreams_unique")]
  have ht : List.count "workstreams_unique"
      (if p.timeline.length < 4 then ["timeline>=4"] else phaseOut 1 p.timeline) = 0 := by
    split
    · decide
    · exact phaseOut_count_unique _ _
  have hr : List.count "workstreams_unique"
      (if p.risks.length < 4 then ["risks>=4"] else riskOut 1 [] p.risks) = 0 := by
    split
    · decide
    · exact riskOut_count_unique _ _ _
  rw [ht, hr,
    count_if_singleton_ne _ _ _ (by decide : "timeline_daily_breakdown_required" ≠ "workstreams_unique"),
    count_if_singleton_ne _ _ _ (by decide : "metrics>=3" ≠ "workstreams_unique")]
  omega


/-- Claim C3, counterexample: a wire-shape plan whose first two
workstreams both carry the empty name — equal under case-insensitive
comparison, so the claim's invariant list is violated — yet the Schema
Validator returns the empty violation list: the code exempts empty names
from the uniqueness check, refuting the claimed equivalence. -/
theorem C3_structural_iff_counterexample :
    planIssues cexPlanNoName.toJson "launch a product" = .ok [] ∧
    ¬ specStructValid cexPlanNoName "launch a product" :=
  ⟨rfl, by decide⟩

/-- Claim C6, counterexample: a plan with 4 workstreams and two
separately duplicated names (`research`/`Research`, `design`/`Design`)
satisfies the claim's hypotheses (length >= 4, two or more
case-insensitively equal names), but the validator's output contains
`workstreams_unique` twice, not exactly once. -/
theorem C6_unique_once_counterexample :
    4 ≤ cexPlanDup.workstreams.length ∧
    typedIssues cexPlanDup "launch a product" = ["workstreams_unique", "workstreams_unique"] ∧
    List.count "workstreams_unique" (typedIssues cexPlanDup "launch a product") = 2 ∧ 2 ≠ 1 :=
  ⟨by decide, rfl, by decide, by decide⟩

theorem C6_unique_count_amended_witness :
    4 ≤ cexPlanOnePair.workstreams.length ∧
    List.count "workstreams_unique" (typedIssues cexPlanOnePair "launch a product") =
      dupOccurrences [] (cexPlanOnePair.workstreams.map wsNameKey) ∧
    dupOccurrences [] (cexPlanOnePair.workstreams.map wsNameKey) = 1 :=
  ⟨by decide, C6_unique_count_amended cexPlanOnePair "launch a product" (by decide), by decide⟩

theorem mustFix_emptyObj (task : String) :
    mustFix (.obj []) task =
      .ok (["assumptions>=3", "timeline>=4", "workstreams>=4", "risks>=4", "metrics>=3"] ++
        (if granularMatch task then ["timeline_daily_breakdown_required"] else [])) := by
  unfold mustFix
  cases hg : granularMatch task <;> simp only [hg] <;> rfl

theorem planIssues_emptyObj (task : String) :
    planIssues (.obj []) task = .ok ["plan_missing_or_not_dict"] := rfl

theorem mustFix_skeleton (task task2 : String) :
    mustFix (skeletonPlan task) task2 =
      .ok (["timeline>=4", "workstreams>=4", "risks>=4", "metrics>=3"] ++
        (if granularMatch task2 then ["timeline_daily_breakdown_required"] else [])) := by
  unfold mustFix skeletonPlan
  cases hg : granularMatch task2 <;> simp only [hg] <;> rfl

theorem planIssues_skeleton (task task2 : String) :
    planIssues (skeletonPlan task) task2 =
      .ok (["timeline>=4"] ++ (if granularMatch task2 then ["timeline_daily_breakdown_required"] else []) ++
        ["workstreams>=4", "risks>=4", "metrics>=3"]) := by
  unfold planIssues skeletonPlan
  cases hg : granularMatch task2 <;> simp only [hg] <;> rfl

theorem orDict_none : orDict none = Json.obj [] := rfl

theorem orDict_skeleton (task : String) : orDict (some (skeletonPlan task)) = skeletonPlan task := rfl

theorem stateBad_none (task : String) : StateBad task none := by
  refine ⟨⟨?_, ?_⟩, ?_⟩
  · rw [orDict_none, mustFix_emptyObj]; cases granularMatch task <;> rfl
  · rw [orDict_none, planIssues_emptyObj]; rfl
  · intro l hl
    rw [orDict_none, planIssues_emptyObj] at hl
    injection hl with hl
    subst hl
    simp

theorem stateBad_skeleton (task task2 : String) : StateBad task2 (some (skeletonPlan task)) := by
  refine ⟨⟨?_, ?_⟩, ?_⟩
  · rw [orDict_skeleton, mustFix_skeleton]; rfl
  · rw [orDict_skeleton, planIssues_skeleton]; rfl
  · intro l hl
    rw [orDict_skeleton, planIssues_skeleton] at hl
    injection hl with hl
    subst hl
    simp

theorem exOk_ok {l : List String} : exOk (.ok l) = true := rfl

theorem checksOk_emptyObj (task : String) : checksOk (.obj []) task := by
  refine ⟨?_, ?_⟩
  · rw [mustFix_emptyObj]; rfl
  · rw [planIssues_emptyObj]; rfl

theorem checksOk_skeleton (task task2 : String) : checksOk (skeletonPlan task) task2 := by
  refine ⟨?_, ?_⟩
  · rw [mustFix_skeleton]; rfl
  · rw [planIssues_skeleton]; rfl

theorem planAttempt_some (loads : String → Option (List (String × Json))) (t : String)
    (d : List (String × Json)) (h : planAttempt loads t = some d) : ∃ u, loads u = some d := by
  unfold planAttempt at h
  cases hp : tryParseJson loads t with
  | none => rw [hp] at h; exact absurd h (by simp)
  | some d' =>
    rw [hp] at h
    dsimp only at h
    split at h
    · injection h with h
      subst h
      unfold tryParseJson at hp
      dsimp only at hp
      cases hf : pyFind (pyStrip t) '{' with
      | none => rw [hf] at hp; exact absurd hp (by simp)
      | some a =>
        cases hr : pyRFind (pyStrip t) '}' with
        | none => rw [hf, hr] at hp; exact absurd hp (by simp)
        | some b =>
          rw [hf, hr] at hp
          dsimp only at hp
          split at hp
          · exact ⟨_, hp⟩
          · exact absurd hp (by simp)
    · exact absurd h (by simp)

theorem safeCallRetry_snd_le (llm : Nat → String) (loads : String → Option (List (String × Json))) :
    ∀ (n cur : Nat), (safeCallRetry llm loads cur n).2 ≤ cur + n := by
  intro n
  induction n with
  | zero => intro cur; simp [safeCallRetry]
  | succ n ih =>
    intro cur
    unfold safeCallRetry
    cases planAttempt loads (pyStrip (llm cur)) with
    | some d => simp
    | none =>
      calc (safeCallRetry llm loads (cur + 1) n).2 ≤ cur + 1 + n := ih (cur + 1)
        _ = cur + (n + 1) := by omega

theorem safeCallRetry_fst_some (llm : Nat → String) (loads : String → Option (List (String × Json))) :
    ∀ (n cur : Nat) (d : List (String × Json)),
      (safeCallRetry llm loads cur n).1 = some d → ∃ u, loads u = some d := by
  intro n
  induction n with
  | zero => intro cur d h; exact absurd h (by simp [safeCallRetry])
  | succ n ih =>
    intro cur d h
    unfold safeCallRetry at h
    cases hp : planAttempt loads (pyStrip (llm cur)) with
    | some d' =>
      rw [hp] at h
      simp only at h
      injection h with h
      subst h
      exact planAttempt_some _ _ _ hp
    | none =>
      rw [hp] at h
      exact ih (cur + 1) d h

theorem safeCallPlanner_snd_le (llm : Nat → String) (loads : String → Option (List (String × Json)))
    (cur : Nat) : (safeCallPlanner llm loads cur).2 ≤ cur + 3 := by
  unfold safeCallPlanner
  cases planAttempt loads (pyStrip (llm cur)) with
  | some d => simp
  | none =>
    calc (safeCallRetry llm loads (cur + 1) 2).2 ≤ cur + 1 + 2 := safeCallRetry_snd_le llm loads 2 (cur + 1)
      _ = cur + 3 := by omega

theorem safeCallPlanner_fst_some (llm : Nat → String) (loads : String → Option (List (String × Json)))
    (cur : Nat) (d : List (String × Json)) (h : (safeCallPlanner llm loads cur).1 = some d) :
    ∃ u, loads u = some d := by
  unfold safeCallPlanner at h
  cases hp : planAttempt loads (pyStrip (llm cur)) with
  | some d' =>
    rw [hp] at h
    simp only at h
    injection h with h
    subst h
    exact planAttempt_some _ _ _ hp
  | none =>
    rw [hp] at h
    exact safeCallRetry_fst_some llm loads 2 (cur + 1) d h

theorem reviewerFix_cases (loads : String → Option (List (String × Json))) (out : String)
    (p : Json) : reviewerFix loads out p = p ∨
      ∃ d u, loads u = some d ∧ reviewerFix loads out p = .obj d := by
  unfold reviewerFix
  cases pyFind out '{' with
  | none => exact Or.inl rfl
  | some a =>
    cases pyRFind out '}' with
    | none => exact Or.inl rfl
    | some b =>
      cases hl : loads (pySlice out a (b + 1)) with
      | none =>
        left
        dsimp only
        rw [hl]
      | some d =>
        right
        refine ⟨d, _, hl, ?_⟩
        dsimp only
        rw [hl]

theorem plannerNode_spec (llm : Nat → String) (loads : String → Option (List (String × Json)))
    (s : LState) :
    (plannerNode llm loads s).task = s.task ∧
    (plannerNode llm loads s).validated = s.validated ∧
    (plannerNode llm loads s).review_attempts = s.review_attempts ∧
    (plannerNode llm loads s).max_review_attempts = s.max_review_attempts ∧
    (plannerNode llm loads s).llm_calls ≤ s.llm_calls + 3 ∧
    ((plannerNode llm loads s).plan = some (skeletonPlan s.task) ∨
     ∃ d u, loads u = some d ∧ (plannerNode llm loads s).plan = some (.obj d)) := by
  have hle := safeCallPlanner_snd_le llm loads s.llm_calls
  unfold plannerNode plannerData
  rcases hsc : safeCallPlanner llm loads s.llm_calls with ⟨dq, cur'⟩
  rw [hsc] at hle
  cases dq with
  | none =>
    refine ⟨rfl, rfl, rfl, rfl, hle, Or.inl rfl⟩
  | some d =>
    have hprov : ∃ u, loads u = some d := by
      apply safeCallPlanner_fst_some llm loads s.llm_calls
      rw [hsc]
    obtain ⟨u, hu⟩ := hprov
    exact ⟨rfl, rfl, rfl, rfl, hle, Or.inr ⟨d, u, hu, rfl⟩⟩

theorem reviewerNode_spec (llm : Nat → String) (loads : String → Option (List (String × Json)))
    (s : LState) (hok : exOk (mustFix (orDict s.plan) s.task) = true) :
    ∃ s' refined, reviewerNode llm loads s = .ok (s', refined) ∧
      s'.task = s.task ∧ s'.review_attempts = s.review_attempts ∧
      s'.max_review_attempts = s.max_review_attempts ∧
      s'.llm_calls ≤ s.llm_calls + 1 ∧
      (s'.plan = s.plan ∨ s'.plan = some (orDict s.plan) ∨
       ∃ d u, loads u = some d ∧ s'.plan = some (.obj d)) := by
  unfold reviewerNode
  cases hm : mustFix (orDict s.plan) s.task with
  | error e => rw [hm] at hok; exact absurd hok (by simp [exOk])
  | ok issues =>
    dsimp only
    rw [hm, exbind_ok]
    by_cases hi : issues.isEmpty
    · simp only [hi, if_true]
      exact ⟨_, false, rfl, rfl, rfl, rfl, by simp, Or.inl rfl⟩
    · simp only [hi, Bool.false_eq_true, if_false]
      rcases reviewerFix_cases loads (pyStrip (llm s.llm_calls)) (orDict s.plan) with hfix | ⟨d, u, hu, hfix⟩
      · exact ⟨_, true, rfl, rfl, rfl, rfl, by simp, Or.inr (Or.inl (by rw [hfix]))⟩
      · exact ⟨_, true, rfl, rfl, rfl, rfl, by simp, Or.inr (Or.inr ⟨d, u, hu, by rw [hfix]⟩)⟩

theorem validatorNode_spec (s : LState)
    (hok : exOk (planIssues (orDict s.plan) s.task) = true) :
    ∃ s' l failed, planIssues (orDict s.plan) s.task = .ok l ∧
      validatorNode s = .ok (s', failed) ∧
      failed = !l.isEmpty ∧
      s'.task = s.task ∧ s'.max_review_attempts = s.max_review_attempts ∧
      s'.plan = s.plan ∧ s'.llm_calls = s.llm_calls ∧
      s'.validated = l.isEmpty ∧
      s'.review_attempts = (if l.isEmpty then s.review_attempts else s.review_attempts + 1) := by
  unfold validatorNode
  cases hp : planIssues (orDict s.plan) s.task with
  | error e => rw [hp] at hok; exact absurd hok (by simp [exOk])
  | ok l =>
    dsimp only
    rw [hp, exbind_ok]
    by_cases hl : l.isEmpty
    · simp only [hl, Bool.not_true, Bool.false_eq_true, if_false]
      exact ⟨_, l, false, rfl, rfl, by simp [hl], rfl, rfl, rfl, rfl, by simp [hl], by simp [hl]⟩
    · simp only [hl, Bool.not_false, if_true, Bool.false_eq_true, if_false]
      exact ⟨_, l, true, rfl, rfl, by simp [hl], rfl, rfl, rfl, rfl, by simp [hl], by simp [hl]⟩

theorem checksOk_orDict_obj (loads : String → Option (List (String × Json))) (task : String)
    (d : List (String × Json)) (u : String) (hS : SafeLoads loads task)
    (hu : loads u = some d) : checksOk (orDict (some (.obj d))) task := by
  unfold orDict
  by_cases hT : pyTruthy (.obj d)
  · simp only [hT, if_true]
    exact hS u d hu
  · simp only [hT, Bool.false_eq_true, if_false]
    exact checksOk_emptyObj task

theorem checksOk_of_prov (loads : String → Option (List (String × Json))) (task : String)
    (p : Option Json) (hS : SafeLoads loads task)
    (hp : p = some (skeletonPlan task) ∨ p = some (.obj []) ∨
          ∃ d u, loads u = some d ∧ p = some (.obj d)) :
    checksOk (orDict p) task := by
  rcases hp with hp | hp | ⟨d, u, hu, hp⟩
  · rw [hp, orDict_skeleton]
    exact checksOk_skeleton task task
  · rw [hp]
    exact checksOk_emptyObj task
  · rw [hp]
    exact checksOk_orDict_obj loads task d u hS hu

theorem stateBad_of_prov (loads : String → Option (List (String × Json))) (task : String)
    (p : Option Json) (hNV : NeverValid loads task)
    (hp : p = some (skeletonPlan task) ∨ p = some (.obj []) ∨
          ∃ d u, loads u = some d ∧ p = some (.obj d)) :
    StateBad task p := by
  rcases hp with hp | hp | ⟨d, u, hu, hp⟩
  · rw [hp]
    exact stateBad_skeleton task task
  · subst hp
    refine ⟨checksOk_emptyObj task, ?_⟩
    intro l hl
    rw [show orDict (some (Json.obj [])) = Json.obj [] from rfl, planIssues_emptyObj] at hl
    injection hl with hl
    subst hl
    simp
  · subst hp
    exact hNV u d hu

theorem runIter_spec (llm : Nat → String) (loads : String → Option (List (String × Json)))
    (s : LState) (hS : SafeLoads loads s.task) :
    ∃ s' refined l,
      runIter llm loads s = .ok (s', [.P, .R refined, .V (!l.isEmpty)]) ∧
      planIssues (orDict s'.plan) s'.task = .ok l ∧
      s'.task = s.task ∧
      s'.max_review_attempts = s.max_review_attempts ∧
      s'.llm_calls ≤ s.llm_calls + 4 ∧
      s'.validated = l.isEmpty ∧
      s'.review_attempts = (if l.isEmpty then s.review_attempts else s.review_attempts + 1) ∧
      (s'.plan = some (skeletonPlan s.task) ∨ s'.plan = some (.obj []) ∨
        ∃ d u, loads u = some d ∧ s'.plan = some (.obj d)) := by
  obtain ⟨h1task, h1val, h1att, h1max, h1llm, h1prov⟩ := plannerNode_spec llm loads s
  have h1prov' : (plannerNode llm loads s).plan = some (skeletonPlan s.task) ∨
      (plannerNode llm loads s).plan = some (.obj []) ∨
      ∃ d u, loads u = some d ∧ (plannerNode llm loads s).plan = some (.obj d) := by
    rcases h1prov with hp | ⟨d, u, hu, hp⟩
    · exact Or.inl hp
    · exact Or.inr (Or.inr ⟨d, u, hu, hp⟩)
  have h1ok : checksOk (orDict (plannerNode llm loads s).plan) (plannerNode llm loads s).task := by
    rw [h1task]
    exact checksOk_of_prov loads s.task _ hS h1prov'
  obtain ⟨s2, refined, hrev, h2task, h2att, h2max, h2llm, h2prov⟩ :=
    reviewerNode_spec llm loads (plannerNode llm loads s) h1ok.1
  have h2prov' : s2.plan = some (skeletonPlan s.task) ∨ s2.plan = some (.obj []) ∨
      ∃ d u, loads u = some d ∧ s2.plan = some (.obj d) := by
    rcases h2prov with hp | hp | ⟨d, u, hu, hp⟩
    · rw [hp]; exact h1prov'
    · rcases h1prov' with hq | hq | ⟨d, u, hu, hq⟩
      · exact Or.inl (by rw [hp, hq, orDict_skeleton])
      · exact Or.inr (Or.inl (by rw [hp, hq]; rfl))
      · rw [hp, hq]
        unfold orDict
        by_cases hT : pyTruthy (.obj d)
        · simp only [hT, if_true]
          exact Or.inr (Or.inr ⟨d, u, hu, rfl⟩)
        · simp only [hT, Bool.false_eq_true, if_false]
          simp
    · exact Or.inr (Or.inr ⟨d, u, hu, hp⟩)
  have h2ok : checksOk (orDict s2.plan) s2.task := by
    rw [h2task, h1task]
    exact checksOk_of_prov loads s.task _ hS h2prov'
  obtain ⟨s3, l, failed, hpl, hval, hfail, h3task, h3max, h3plan, h3llm, h3validated, h3att⟩ :=
    validatorNode_spec s2 h2ok.2
  refine ⟨s3, refined, l, ?_, ?_, ?_, ?_, ?_, ?_, ?_, ?_⟩
  · unfold runIter
    dsimp only
    rw [hrev, exbind_ok]
    dsimp only
    rw [hval, exbind_ok]
    dsimp only
    rw [hfail]
  · rw [h3plan, h3task]
    exact hpl
  · rw [h3task, h2task, h1task]
  · rw [h3max, h2max, h1max]
  · rw [h3llm]
    omega
  · exact h3validated
  · rw [h3att, h2att, h1att]
  · rw [h3plan]
    exact h2prov'

theorem countP_append (a b : List Ev) : countP (a ++ b) = countP a + countP b := by
  simp [countP, List.filter_append]

theorem countV_append (a b : List Ev) : countV (a ++ b) = countV a + countV b := by
  simp [countV, List.filter_append]

theorem countRefine_append (a b : List Ev) : countRefine (a ++ b) = countRefine a + countRefine b := by
  simp [countRefine, List.filter_append]

theorem countVFail_append (a b : List Ev) : countVFail (a ++ b) = countVFail a + countVFail b := by
  simp [countVFail, List.filter_append]

theorem countP_block (r f : Bool) : countP [.P, .R r, .V f] = 1 := by
  cases r <;> cases f <;> rfl

theorem countV_block (r f : Bool) : countV [.P, .R r, .V f] = 1 := by
  cases r <;> cases f <;> rfl

theorem countRefine_block_le (r f : Bool) : countRefine [.P, .R r, .V f] ≤ 1 := by
  cases r <;> cases f <;> simp [countRefine]

theorem countVFail_block (r f : Bool) :
    countVFail [.P, .R r, .V f] = (if f then 1 else 0) := by
  cases r <;> cases f <;> rfl

theorem traceBlocks_block (r f : Bool) (rest : List Ev) :
    traceBlocks ([Ev.P, Ev.R r, Ev.V f] ++ rest) = traceBlocks rest := rfl

theorem router_eq_researcher (s : LState)
    (h : s.validated = true ∨ s.max_review_attempts ≤ s.review_attempts) :
    validationRouter s = "researcher" := by
  unfold validationRouter
  rcases h with h | h
  · simp [h]
  · by_cases hv : s.validated
    · simp [hv]
    · simp [hv, h]

theorem router_eq_planner (s : LState)
    (hv : s.validated = false) (ha : s.review_attempts < s.max_review_attempts) :
    validationRouter s = "planner" := by
  unfold validationRouter
  simp [hv]
  omega

theorem traceBlocks_single (r f : Bool) : traceBlocks [Ev.P, Ev.R r, Ev.V f] = true := rfl

theorem runLoop_spec (llm : Nat → String) (loads : String → Option (List (String × Json)))
    (task : String) (maxA : Nat) (hS : SafeLoads loads task) :
    ∀ (fuel : Nat) (s : LState) (tr : List Ev),
      s.task = task →
      s.max_review_attempts = maxA →
      maxA ≤ s.review_attempts + fuel →
      1 ≤ fuel →
      ∃ s' tr2,
        runLoop llm loads fuel s tr = .ok (some (s', tr ++ tr2)) ∧
        s'.task = task ∧ s'.max_review_attempts = maxA ∧
        traceBlocks tr2 = true ∧
        countP tr2 = countV tr2 ∧
        countRefine tr2 ≤ countP tr2 ∧
        1 ≤ countP tr2 ∧
        countP tr2 ≤ max (maxA - s.review_attempts) 1 ∧
        s'.llm_calls ≤ s.llm_calls + 4 * countP tr2 ∧
        s'.review_attempts = s.review_attempts + countVFail tr2 := by
  intro fuel
  induction fuel with
  | zero => intro s tr _ _ _ h1; omega
  | succ fuel ih =>
    intro s tr htask hmax hbound _
    obtain ⟨s1, refined, l, hiter, hpl, h1task, h1max, h1llm, h1val, h1att, h1prov⟩ :=
      runIter_spec llm loads s (htask ▸ hS)
    unfold runLoop
    rw [hiter, exbind_ok]
    dsimp only
    by_cases hl : l.isEmpty
    · have hroute : validationRouter s1 = "researcher" :=
        router_eq_researcher s1 (Or.inl (by rw [h1val, hl]))
      rw [hroute, if_neg (by decide : ¬ ("researcher" = "planner"))]
      refine ⟨s1, [Ev.P, Ev.R refined, Ev.V (!l.isEmpty)], rfl, h1task.trans htask,
        h1max.trans hmax, traceBlocks_single _ _, ?_, ?_, ?_, ?_, ?_, ?_⟩
      · rw [countP_block, countV_block]
      · rw [countP_block]; exact countRefine_block_le _ _
      · rw [countP_block]
      · rw [countP_block]; exact le_max_right _ _
      · rw [countP_block]; omega
      · rw [h1att, countVFail_block]; simp [hl]
    · by_cases hc : s1.review_attempts < s1.max_review_attempts
      · have hroute : validationRouter s1 = "planner" :=
          router_eq_planner s1 (by rw [h1val]; simp [hl]) hc
        rw [hroute, if_pos rfl]
        have h1att' : s1.review_attempts = s.review_attempts + 1 := by
          rw [h1att]; simp [hl]
        have hfuel1 : 1 ≤ fuel := by
          rw [h1max, hmax] at hc
          omega
        obtain ⟨s', tr3, hrun, h2task, h2max, h2blocks, h2pv, h2ref, h2one, h2bound, h2llm, h2att⟩ :=
          ih s1 (tr ++ [Ev.P, Ev.R refined, Ev.V (!l.isEmpty)]) (h1task.trans htask)
            (h1max.trans hmax) (by rw [h1att']; omega) hfuel1
        refine ⟨s', [Ev.P, Ev.R refined, Ev.V (!l.isEmpty)] ++ tr3, ?_, h2task, h2max,
          ?_, ?_, ?_, ?_, ?_, ?_, ?_⟩
        · rw [hrun, List.append_assoc]
        · rw [traceBlocks_block, h2blocks]
        · rw [countP_append, countV_append, countP_block, countV_block, h2pv]
        · rw [countRefine_append, countP_append, countP_block]
          have := countRefine_block_le refined (!l.isEmpty)
          omega
        · rw [countP_append, countP_block]
          omega
        · rw [countP_append, countP_block]
          rw [h1att', h1max.trans hmax] at hc
          rw [h1att'] at h2bound
          omega
        · rw [countP_append, countP_block]
          calc s'.llm_calls ≤ s1.llm_calls + 4 * countP tr3 := h2llm
            _ ≤ s.llm_calls + 4 + 4 * countP tr3 := by omega
            _ = s.llm_calls + 4 * (1 + countP tr3) := by omega
        · rw [countVFail_append, countVFail_block, h2att, h1att']
          simp only [hl, Bool.not_false, if_true, Bool.false_eq_true, if_false]
          omega
      · have hroute : validationRouter s1 = "researcher" :=
          router_eq_researcher s1 (Or.inr (by omega))
        rw [hroute, if_neg (by decide : ¬ ("researcher" = "planner"))]
        refine ⟨s1, [Ev.P, Ev.R refined, Ev.V (!l.isEmpty)], rfl, h1task.trans htask,
          h1max.trans hmax, traceBlocks_single _ _, ?_, ?_, ?_, ?_, ?_, ?_⟩
        · rw [countP_block, countV_block]
        · rw [countP_block]; exact countRefine_block_le _ _
        · rw [countP_block]
        · rw [countP_block]; exact le_max_right _ _
        · rw [countP_block]; omega
        · rw [h1att, countVFail_block]; simp [hl]

theorem runLoop_neverValid (llm : Nat → String) (loads : String → Option (List (String × Json)))
    (task : String) (maxA : Nat) (hS : SafeLoads loads task) (hNV : NeverValid loads task) :
    ∀ (fuel : Nat) (s : LState) (tr : List Ev),
      s.task = task →
      s.max_review_attempts = maxA →
      s.review_attempts < maxA →
      maxA ≤ s.review_attempts + fuel →
      ∃ s' tr2,
        runLoop llm loads fuel s tr = .ok (some (s', tr ++ tr2)) ∧
        s'.validated = false ∧
        s'.review_attempts = maxA ∧
        countVFail tr2 = maxA - s.review_attempts ∧
        countP tr2 = maxA - s.review_attempts := by
  intro fuel
  induction fuel with
  | zero => intro s tr _ _ h1 h2; omega
  | succ fuel ih =>
    intro s tr htask hmax hlt hbound
    obtain ⟨s1, refined, l, hiter, hpl, h1task, h1max, h1llm, h1val, h1att, h1prov⟩ :=
      runIter_spec llm loads s (htask ▸ hS)
    have hbad : StateBad task s1.plan := by
      apply stateBad_of_prov loads task s1.plan hNV
      rw [← htask]
      exact h1prov
    have hlne : l ≠ [] := by
      apply hbad.2
      rw [h1task, htask] at hpl
      exact hpl
    have hl : l.isEmpty = false := by
      cases l with
      | nil => exact absurd rfl hlne
      | cons a as => rfl
    have h1att' : s1.review_attempts = s.review_attempts + 1 := by
      rw [h1att]; simp [hl]
    unfold runLoop
    rw [hiter, exbind_ok]
    dsimp only
    by_cases hc : s1.review_attempts < s1.max_review_attempts
    · have hroute : validationRouter s1 = "planner" :=
        router_eq_planner s1 (by rw [h1val, hl]) hc
      rw [hroute, if_pos rfl]
      have hcM : s1.review_attempts < maxA := by
        rw [← hmax, ← h1max]
        exact hc
      have hx := hcM
      rw [h1att'] at hx
      obtain ⟨s', tr3, hrun, h2val, h2att, h2vf, h2p⟩ :=
        ih s1 (tr ++ [Ev.P, Ev.R refined, Ev.V (!l.isEmpty)]) (h1task.trans htask)
          (h1max.trans hmax) hcM (by rw [h1att']; omega)
      refine ⟨s', [Ev.P, Ev.R refined, Ev.V (!l.isEmpty)] ++ tr3, ?_, h2val, h2att, ?_, ?_⟩
      · rw [hrun, List.append_assoc]
      · rw [countVFail_append, countVFail_block, h2vf, h1att']
        simp only [hl, Bool.not_false, if_true]
        omega
      · rw [countP_append, countP_block, h2p, h1att']
        omega
    · have hroute : validationRouter s1 = "researcher" :=
        router_eq_researcher s1 (Or.inr (by omega))
      rw [hroute, if_neg (by decide : ¬ ("researcher" = "planner"))]
      have heq : s1.review_attempts = maxA := by
        rw [h1max, hmax] at hc
        rw [h1att'] at hc ⊢
        omega
      refine ⟨s1, [Ev.P, Ev.R refined, Ev.V (!l.isEmpty)], rfl, by rw [h1val, hl], heq, ?_, ?_⟩
      · rw [countVFail_block]
        simp only [hl, Bool.not_false, if_true]
        rw [h1att'] at heq
        omega
      · rw [countP_block]
        rw [h1att'] at heq
        omega

/-- Claim C1, counterexample: a generative behavior whose responses all
parse to a document carrying the five required keys but binding
`assumptions` to the integer 1.  `_safe_call_planner` accepts it, and the
Reviewer's `len(plan["assumptions"])` then raises `TypeError`: the
pipeline run aborts with an uncaught exception and the loop never reaches
`DONE` — refuting "for every behavior of the generative steps ... the
refinement loop terminates in the DONE state".-/
theorem C1_termination_counterexample :
    loopRun crashLLM crashLoads 4 "launch a product" 3 = .error () ∧
    loopDone (loopRun crashLLM crashLoads 4 "launch a product" 3) = false :=
  ⟨rfl, rfl⟩

/-- Claim C1 (amended): for every generative behavior whose parsed plans
keep the structural checks total (no `TypeError`-raising field values),
the loop always reaches `DONE` (with any fuel beyond `max_attempts`
iterations), the loop's generative-step invocations (Plan Generator runs
plus Corrective Refiner generation calls) number at most `2*max_attempts`
for `max_attempts ≥ 1` — within the claimed `1 + 2*max_attempts`, 6 ≤ 7
at the default 3 — while raw generation-provider calls are bounded by
`4*max_attempts` (12 at the default), because each Plan Generator run
issues up to 3 provider calls. -/
theorem C1_termination_bound_amended (llm : Nat → String)
    (loads : String → Option (List (String × Json))) (task : String) (maxA fuel : Nat)
    (hS : SafeLoads loads task) (hmax : 1 ≤ maxA) (hfuel : maxA + 1 ≤ fuel) :
    loopDone (loopRun llm loads fuel task maxA) = true ∧
    optLE (loopGenSteps (loopRun llm loads fuel task maxA)) (2 * maxA) = true ∧
    optLE (loopGenSteps (loopRun llm loads fuel task maxA)) (1 + 2 * maxA) = true ∧
    optLE (loopLLMCalls (loopRun llm loads fuel task maxA)) (4 * maxA) = true := by
  obtain ⟨s', tr2, hrun, _, _, _, hpv, href, hone, hbound, hllm, hatt⟩ :=
    runLoop_spec llm loads task maxA hS fuel (initState task maxA) [] rfl rfl
      (by show maxA ≤ 0 + fuel; omega) (by omega)
  rw [List.nil_append] at hrun
  have hr : loopRun llm loads fuel task maxA = .ok (some (s', tr2)) := hrun
  have hmaxeq : max (maxA - (initState task maxA).review_attempts) 1 = maxA := by
    show max (maxA - 0) 1 = maxA
    omega
  rw [hmaxeq] at hbound
  have hllm' : s'.llm_calls ≤ 4 * countP tr2 := by
    have : (initState task maxA).llm_calls = 0 := rfl
    omega
  have hg : loopGenSteps (Except.ok (some (s', tr2)) : Except Unit (Option (LState × List Ev))) =
      some (countP tr2 + countRefine tr2) := rfl
  have hc : loopLLMCalls (Except.ok (some (s', tr2)) : Except Unit (Option (LState × List Ev))) =
      some s'.llm_calls := rfl
  refine ⟨?_, ?_, ?_, ?_⟩
  · rw [hr]; rfl
  · rw [hr, hg]
    simp only [optLE, decide_eq_true_eq]
    omega
  · rw [hr, hg]
    simp only [optLE, decide_eq_true_eq]
    omega
  · rw [hr, hc]
    simp only [optLE, decide_eq_true_eq]
    omega

/-- Claim C2, counterexample: with a behavior whose responses never
parse, the loop runs to the ceiling and the Plan Generator (planner node)
is invoked 3 times — not "exactly once, on the very first iteration".
After every failed below-ceiling validation the router returns
`"planner"`, so control re-enters the raw Plan Generator rather than
jumping back to the Schema Validator. -/
theorem C2_generator_once_counterexample :
    loopPCount (loopRun exLLM exLoads 4 "launch a product" 3) = some 3 ∧ 3 ≠ 1 :=
  ⟨rfl, by decide⟩

/-- Claim C2 (amended): in every (check-safe) run, the trace is a
sequence of complete `planner → reviewer → validator` blocks: the Plan
Generator is re-invoked once per validation cycle (planner invocations =
validator runs ≥ 1), and the Corrective Refiner always hands control to
the Schema Validator within the same cycle. -/
theorem C2_control_flow_amended (llm : Nat → String)
    (loads : String → Option (List (String × Json))) (task : String) (maxA fuel : Nat)
    (hS : SafeLoads loads task) (hmax : 1 ≤ maxA) (hfuel : maxA + 1 ≤ fuel) :
    loopBlocks (loopRun llm loads fuel task maxA) = true ∧
    loopPCount (loopRun llm loads fuel task maxA) =
      loopVCount (loopRun llm loads fuel task maxA) ∧
    optGE (loopPCount (loopRun llm loads fuel task maxA)) 1 = true := by
  obtain ⟨s', tr2, hrun, _, _, hblocks, hpv, _, hone, _, _, _⟩ :=
    runLoop_spec llm loads task maxA hS fuel (initState task maxA) [] rfl rfl
      (by show maxA ≤ 0 + fuel; omega) (by omega)
  rw [List.nil_append] at hrun
  have hr : loopRun llm loads fuel task maxA = .ok (some (s', tr2)) := hrun
  refine ⟨?_, ?_, ?_⟩
  · rw [hr]
    show traceBlocks tr2 = true
    exact hblocks
  · rw [hr]
    show some (countP tr2) = some (countV tr2)
    rw [hpv]
  · rw [hr]
    show optGE (some (countP tr2)) 1 = true
    simp only [optGE, decide_eq_true_eq]
    omega

/-- Claim C9, counterexample: in the never-parsing ceiling run,
`review_attempts` ends at 3 while the planner ran 3 times, i.e. there
were only 2 loop-backs (VALIDATING → REFINING transitions).  The third
increment happened on the failed validation whose router outcome was the
ceiling exit (VALIDATING → DONE), which the claim says leaves the counter
unchanged. -/
theorem C9_attempt_count_counterexample :
    loopAttempts (loopRun exLLM exLoads 4 "launch a product" 3) = some 3 ∧
    loopPCount (loopRun exLLM exLoads 4 "launch a product" 3) = some 3 ∧
    (3 : Nat) ≠ 3 - 1 :=
  ⟨rfl, rfl, by decide⟩

/-- Claim C9 (amended): `review_attempts` starts at 0 and ends equal to
the number of failed validations — it increments by exactly 1 on every
failed validation, including the final one that triggers the ceiling
exit, and is unchanged on a successful validation. -/
theorem C9_attempt_count_amended (llm : Nat → String)
    (loads : String → Option (List (String × Json))) (task : String) (maxA fuel : Nat)
    (hS : SafeLoads loads task) (hmax : 1 ≤ maxA) (hfuel : maxA + 1 ≤ fuel) :
    (initState task maxA).review_attempts = 0 ∧
    loopAttempts (loopRun llm loads fuel task maxA) =
      loopVFails (loopRun llm loads fuel task maxA) := by
  obtain ⟨s', tr2, hrun, _, _, _, _, _, _, _, _, hatt⟩ :=
    runLoop_spec llm loads task maxA hS fuel (initState task maxA) [] rfl rfl
      (by show maxA ≤ 0 + fuel; omega) (by omega)
  rw [List.nil_append] at hrun
  have hr : loopRun llm loads fuel task maxA = .ok (some (s', tr2)) := hrun
  refine ⟨rfl, ?_⟩
  rw [hr]
  show some s'.review_attempts = some (countVFail tr2)
  rw [hatt]
  show some (0 + countVFail tr2) = some (countVFail tr2)
  rw [Nat.zero_add]

/-- Claim C4: with `max_attempts = 3`, for every (check-safe) behavior
whose plans never validate, the loop exits to `DONE` after exactly 3
failed validations with `review_attempts = 3` and `validated = false` —
the most recently refined plan is forwarded and ceiling exhaustion is a
normal return, not an exception. -/
theorem C4_ceiling_exact (llm : Nat → String)
    (loads : String → Option (List (String × Json))) (task : String)
    (hS : SafeLoads loads task) (hNV : NeverValid loads task) :
    loopDone (loopRun llm loads 4 task 3) = true ∧
    loopAttempts (loopRun llm loads 4 task 3) = some 3 ∧
    loopValidated (loopRun llm loads 4 task 3) = some false ∧
    loopVFails (loopRun llm loads 4 task 3) = some 3 := by
  obtain ⟨s', tr2, hrun, hval, hatt, hvf, hp⟩ :=
    runLoop_neverValid llm loads task 3 hS hNV 4 (initState task 3) [] rfl rfl
      (by show (0 : Nat) < 3; omega) (by show (3 : Nat) ≤ 0 + 4; omega)
  rw [List.nil_append] at hrun
  have hr : loopRun llm loads 4 task 3 = .ok (some (s', tr2)) := hrun
  refine ⟨?_, ?_, ?_, ?_⟩
  · rw [hr]; rfl
  · rw [hr]
    show some s'.review_attempts = some 3
    rw [hatt]
  · rw [hr]
    show some s'.validated = some false
    rw [hval]
  · rw [hr]
    show some (countVFail tr2) = some 3
    rw [hvf]
    rfl

theorem C1_termination_bound_amended_witness :
    SafeLoads exLoads "launch a product" ∧ 1 ≤ 3 ∧ 3 + 1 ≤ 4 ∧
    (loopDone (loopRun exLLM exLoads 4 "launch a product" 3) = true ∧
     optLE (loopGenSteps (loopRun exLLM exLoads 4 "launch a product" 3)) (2 * 3) = true ∧
     optLE (loopGenSteps (loopRun exLLM exLoads 4 "launch a product" 3)) (1 + 2 * 3) = true ∧
     optLE (loopLLMCalls (loopRun exLLM exLoads 4 "launch a product" 3)) (4 * 3) = true) := by
  have hS : SafeLoads exLoads "launch a product" := by
    intro u d h
    simp [exLoads] at h
  exact ⟨hS, by decide, by decide,
    C1_termination_bound_amended exLLM exLoads "launch a product" 3 4 hS (by decide) (by decide)⟩

theorem C2_control_flow_amended_witness :
    SafeLoads exLoads "launch a product" ∧ 1 ≤ 3 ∧ 3 + 1 ≤ 4 ∧
    (loopBlocks (loopRun exLLM exLoads 4 "launch a product" 3) = true ∧
     loopPCount (loopRun exLLM exLoads 4 "launch a product" 3) =
       loopVCount (loopRun exLLM exLoads 4 "launch a product" 3) ∧
     optGE (loopPCount (loopRun exLLM exLoads 4 "launch a product" 3)) 1 = true) := by
  have hS : SafeLoads exLoads "launch a product" := by
    intro u d h
    simp [exLoads] at h
  exact ⟨hS, by decide, by decide,
    C2_control_flow_amended exLLM exLoads "launch a product" 3 4 hS (by decide) (by decide)⟩

theorem C9_attempt_count_amended_witness :
    SafeLoads exLoads "launch a product" ∧ 1 ≤ 3 ∧ 3 + 1 ≤ 4 ∧
    ((initState "launch a product" 3).review_attempts = 0 ∧
     loopAttempts (loopRun exLLM exLoads 4 "launch a product" 3) =
       loopVFails (loopRun exLLM exLoads 4 "launch a product" 3)) := by
  have hS : SafeLoads exLoads "launch a product" := by
    intro u d h
    simp [exLoads] at h
  exact ⟨hS, by decide, by decide,
    C9_attempt_count_amended exLLM exLoads "launch a product" 3 4 hS (by decide) (by decide)⟩

theorem C4_ceiling_exact_witness :
    SafeLoads exLoads "Plan a 2-week hackathon" ∧ NeverValid exLoads "Plan a 2-week hackathon" ∧
    (loopDone (loopRun exLLM exLoads 4 "Plan a 2-week hackathon" 3) = true ∧
     loopAttempts (loopRun exLLM exLoads 4 "Plan a 2-week hackathon" 3) = some 3 ∧
     loopValidated (loopRun exLLM exLoads 4 "Plan a 2-week hackathon" 3) = some false ∧
     loopVFails (loopRun exLLM exLoads 4 "Plan a 2-week hackathon" 3) = some 3) := by
  have hS : SafeLoads exLoads "Plan a 2-week hackathon" := by
    intro u d h
    simp [exLoads] at h
  have hNV : NeverValid exLoads "Plan a 2-week hackathon" := by
    intro u d h
    simp [exLoads] at h
  exact ⟨hS, hNV, C4_ceiling_exact exLLM exLoads "Plan a 2-week hackathon" hS hNV⟩
